import Mathlib

/-!
Verification development for the voice-based to-do front-end
(`src/static/script.js`).  The file shallow-embeds the pieces of the
script that the specification talks about:

* the wake-word fuzzy matcher `wakeWordHeard` and its text normalization,
* the command interpreter `processCommand` (the ordered if-chain),
* the REST helper `sendCommandJson`,
* the confirmation-reply classifier of the confirmation dialog, and
* the event-driven session state machine (wake / command / confirmation
  recognition sessions, speech-synthesis queue, confirmation dialog,
  mute toggle) as a small-step transition system over an explicit state.

Strings are modelled with Lean `String` / `List Char`; the JavaScript
whitespace class is modelled as space, tab, newline and carriage return,
which covers every string the script manipulates.  `src/unnamed/part_000`
is an earlier draft (`script3.js`) of the same script; the served file
`src/static/script.js` is the authoritative implementation and is the one
embedded here.
-/

namespace VoiceTodo

/-! ### String primitives (JavaScript semantics) -/

/-- Whitespace test used for the JS `\s` class and `trim` on the strings
the script handles. -/
def isWsChar (c : Char) : Bool :=
  c == ' ' || c == '\t' || c == '\n' || c == '\r'

/-- Characters removed by the wake-word normalizer, JS `/[.,!?]/g`. -/
def isPunctChar (c : Char) : Bool :=
  c == '.' || c == ',' || c == '!' || c == '?'

/-- JS `String.prototype.trim` on a character list: drop whitespace from
both ends. -/
def trimChars (l : List Char) : List Char :=
  ((l.dropWhile isWsChar).reverse.dropWhile isWsChar).reverse

/-- JS `trim` on strings. -/
def strTrim (s : String) : String := ⟨trimChars s.data⟩

/-- JS `toLowerCase` (character-wise; the script only handles ASCII). -/
def strToLower (s : String) : String := ⟨s.data.map Char.toLower⟩

/-- JS `startsWith`. -/
def strStartsWith (s pre : String) : Bool := pre.data.isPrefixOf s.data

/-- JS `String.prototype.slice(n)` /char-drop used to strip keywords. -/
def strDrop (n : Nat) (s : String) : String := ⟨s.data.drop n⟩

/-- Contiguous-sublist test on character lists (JS `includes`). -/
def listIncludes (sub : List Char) : List Char → Bool
  | [] => sub.isEmpty
  | c :: rest => sub.isPrefixOf (c :: rest) || listIncludes sub rest

/-- JS `String.prototype.includes`. -/
def strIncludes (hay sub : String) : Bool := listIncludes sub.data hay.data

/-- Collapse every run of whitespace to a single space,
JS `replace(/\s+/g, " ")`.  The flag records whether the previous output
character was the collapsing space. -/
def collapseWs : Bool → List Char → List Char
  | _, [] => []
  | prevWs, c :: rest =>
    if isWsChar c then
      if prevWs then collapseWs true rest else ' ' :: collapseWs true rest
    else c :: collapseWs false rest

/-! ### Wake-word fuzzy matching (`wakeWordHeard`, script.js 66-113) -/

/-- Normalization pipeline of `wakeWordHeard`: lowercase, punctuation to
spaces, collapse whitespace, trim. -/
def normalizeTranscript (raw : String) : String :=
  ⟨trimChars (collapseWs false
      ((raw.data.map Char.toLower).map fun c => if isPunctChar c then ' ' else c))⟩

/-- The accepted wake-phrase variants, exactly as listed in the source. -/
def wakeVariants : List String :=
  [ "hey to do", "hey todo", "hey to-do",
    "hey todu", "hey tudu", "hey tutu", "hey tado", "hey two do", "hey 2 do",
    "hello to do", "hello todo", "hello to-do",
    "hate to do", "hate todo", "hate to-do", "hate odo", "hate odoo",
    "hate todu", "hate tudu",
    "hey do", "hey to", "hey odo" ]

/-- `wakeWordHeard(rawTranscript)`: false on the empty transcript
(JS `!rawTranscript`), otherwise true iff some variant occurs as a
substring of the normalized transcript. -/
def wakeWordHeard (raw : String) : Bool :=
  if raw = "" then false
  else wakeVariants.any fun v => strIncludes (normalizeTranscript raw) v

/-! ### Command interpreter (`processCommand`, script.js 892-1001) -/

/-- A task as returned by `GET /tasks` (only the fields the embedded code
reads). -/
structure Task where
  name : String
  done : Bool
deriving Repr, DecidableEq

/-- A `POST` request issued through `sendCommandJson`: the path and the
single string argument of the JSON payload (`none` for an empty payload). -/
structure PostReq where
  path : String
  arg : Option String
deriving Repr, DecidableEq

/-- The two destructive confirmation dialogs the interpreter can open. -/
inductive DialogKind
  | clearAll
  | clearCompleted
deriving Repr, DecidableEq

/-- Dialog text shown in the modal (first argument of `openConfirmDialog`). -/
def dialogMessage : DialogKind → String
  | .clearAll => "This will delete ALL tasks and cannot be undone. Are you sure?"
  | .clearCompleted => "This will delete all completed tasks and cannot be undone. Are you sure?"

/-- Voice prompt passed to `openConfirmDialog` (fourth argument); the
generic dialog falls back to the message when this is absent. -/
def dialogVoicePrompt : DialogKind → Option String
  | .clearAll => some "Warning. This will delete all of your tasks. Are you sure?"
  | .clearCompleted => some "You asked to clear all completed tasks. Are you sure?"

/-- The request posted by the `onConfirm` action of each dialog. -/
def dialogConfirmPost : DialogKind → PostReq
  | .clearAll => ⟨"/clear", none⟩
  | .clearCompleted => ⟨"/clear-completed", none⟩

/-- Observable effects of one `processCommand` call.  `newSort = none`
means the sort mode is left unchanged; `getTasks` records a `GET /tasks`
issued by a listing helper; `refreshed` records a `refreshTasks()` call
made directly by a sort branch. -/
structure CmdEff where
  spoken : List String
  statusMsgs : List (String × String)
  posts : List PostReq
  getTasks : Bool
  refreshed : Bool
  dialog : Option DialogKind
  newSort : Option String
deriving Repr, DecidableEq

/-- The all-empty effect: nothing spoken, shown, posted or changed. -/
def emptyEff : CmdEff := ⟨[], [], [], false, false, none, none⟩

/-- Effect of a branch that only calls `speak(t)`. -/
def speakEff (t : String) : CmdEff := { emptyEff with spoken := [t] }

/-- Effect of a branch that dispatches one POST request. -/
def postEff (path : String) (arg : Option String) : CmdEff :=
  { emptyEff with posts := [⟨path, arg⟩] }

/-- Effect of a destructive branch: it only opens the confirmation dialog. -/
def dialogEff (k : DialogKind) : CmdEff := { emptyEff with dialog := some k }

/-- Effect of a sort branch: set the mode, speak, refresh the list. -/
def sortEff (mode text : String) : CmdEff :=
  { emptyEff with
    newSort := some mode
    spoken := [text]
    refreshed := true }

/-- Effect of `listAllTasks()` given the backend response `tasks`
(script.js 1010-1026; the fetch itself is modelled as succeeding with
`tasks`). -/
def listAllEff (tasks : List Task) : CmdEff :=
  if tasks.length = 0 then
    { emptyEff with
      getTasks := true
      spoken := ["You have no tasks."]
      statusMsgs := [("No tasks found.", "orange")] }
  else
    { emptyEff with
      getTasks := true
      spoken := ["You have " ++ toString tasks.length ++ " tasks: " ++
        String.intercalate ", " (tasks.map Task.name)] }

/-- Effect of `listPendingTasks()` (script.js 1031-1050). -/
def listPendingEff (tasks : List Task) : CmdEff :=
  let pending := tasks.filter fun t => !t.done
  if pending.length = 0 then
    { emptyEff with
      getTasks := true
      spoken := ["You have no pending tasks."]
      statusMsgs := [("No pending tasks.", "green")] }
  else
    { emptyEff with
      getTasks := true
      spoken := ["You have " ++ toString pending.length ++ " pending tasks: " ++
        String.intercalate ", " (pending.map Task.name)] }

/-- Effect of `listCompletedTasks()` (script.js 1055-1074). -/
def listCompletedEff (tasks : List Task) : CmdEff :=
  let completed := tasks.filter fun t => t.done
  if completed.length = 0 then
    { emptyEff with
      getTasks := true
      spoken := ["You have no completed tasks."]
      statusMsgs := [("No completed tasks.", "gray")] }
  else
    { emptyEff with
      getTasks := true
      spoken := ["You have " ++ toString completed.length ++ " completed tasks: " ++
        String.intercalate ", " (completed.map Task.name)] }

/-- Does `rest` match the regex tail `\s+(?:as\s+)?done$`?  Used by the
`mark ... done` pattern. -/
def restMatchesDone (rest : List Char) : Bool :=
  match rest with
  | [] => false
  | c :: _ =>
    isWsChar c &&
      (let r2 := rest.dropWhile isWsChar
       (("as".data.isPrefixOf r2 &&
          (let r3 := r2.drop 2
           match r3 with
           | c2 :: _ => isWsChar c2 && r3.dropWhile isWsChar == "done".data
           | [] => false)) ||
        r2 == "done".data))

/-- Scan for the lazy group of `/^mark\s+(.+?)\s+(?:as\s+)?done$/`:
the shortest nonempty prefix of `l` whose remainder matches the tail. -/
def markSplit (acc : List Char) : List Char → Option (List Char)
  | [] => none
  | c :: rest =>
    if restMatchesDone rest then some (acc ++ [c])
    else markSplit (acc ++ [c]) rest

/-- Matcher for `/^mark\s+(.+?)\s+(?:as\s+)?done$/i` applied to the
lowercased, trimmed transcript; returns the (trimmed) captured name. -/
def markDoneMatch (l : List Char) : Option (List Char) :=
  if "mark".data.isPrefixOf l then
    match l.drop 4 with
    | c :: _ =>
      if isWsChar c then
        match markSplit [] ((l.drop 4).dropWhile isWsChar) with
        | some g => some (trimChars g)
        | none => none
      else none
    | [] => none
  else none

/-- Matcher for `/^(?:delete|remove)\s+(.+)$/i` on the lowercased
transcript; returns the trimmed captured name. -/
def deleteMatch (l : List Char) : Option (List Char) :=
  let tryKw : List Char → Option (List Char) := fun kw =>
    if kw.isPrefixOf l then
      match l.drop kw.length with
      | c :: rest =>
        if isWsChar c then
          let r2 := (c :: rest).dropWhile isWsChar
          if r2 = [] then none else some (trimChars r2)
        else none
      | [] => none
    else none
  (tryKw "delete".data).orElse fun _ => tryKw "remove".data

/-- `processCommand(cmd)` as a pure effect function.  `none` models a
call with an undefined transcript; `tasks` is the backend response used
by the listing helpers.  The branch order mirrors the source if-chain
exactly (script.js 892-1001). -/
def processCommand (cmdOpt : Option String) (tasks : List Task) : CmdEff :=
  match cmdOpt with
  | none => emptyEff
  | some cmd0 =>
    if cmd0 = "" then emptyEff else
    let cmd := strTrim cmd0
    if cmd = "" then emptyEff else
    let lower := strToLower cmd
    if strStartsWith lower "add " then
      let name := strTrim (strDrop 3 cmd)
      if name = "" then speakEff "What should I add?"
      else postEff "/add" (some name)
    else if strStartsWith lower "remind me to " then
      let name := strTrim (strDrop 12 cmd)
      if name = "" then speakEff "What should I remind you to do?"
      else postEff "/add" (some name)
    else
      match markDoneMatch lower.data with
      | some n => postEff "/mark-by-name" (some ⟨n⟩)
      | none =>
        match deleteMatch lower.data with
        | some n => postEff "/delete-by-name" (some ⟨n⟩)
        | none =>
          if strIncludes lower "clear completed" || strIncludes lower "remove completed" then
            dialogEff .clearCompleted
          else if strIncludes lower "clear all" || strIncludes lower "remove all" then
            dialogEff .clearAll
          else if strIncludes lower "list all tasks" || strIncludes lower "what are my tasks" then
            listAllEff tasks
          else if strIncludes lower "list pending" || strIncludes lower "pending tasks" then
            listPendingEff tasks
          else if strIncludes lower "list completed" || strIncludes lower "completed tasks" then
            listCompletedEff tasks
          else if strIncludes lower "sort by priority" || strIncludes lower "order by priority" then
            sortEff "priority" "Sorting by priority."
          else if strIncludes lower "sort by category" || strIncludes lower "order by category" then
            sortEff "category" "Sorting by category."
          else if strIncludes lower "sort by due" || strIncludes lower "sort by date" ||
              strIncludes lower "sort by deadline" || strIncludes lower "order by due" ||
              strIncludes lower "order by date" || strIncludes lower "order by deadline" then
            sortEff "due" "Sorting by due date."
          else if strIncludes lower "sort by created" || strIncludes lower "sort by added" ||
              strIncludes lower "order by created" || strIncludes lower "order by added" then
            sortEff "created" "Sorting by created time."
          else speakEff "Sorry, I did not understand that."

/-! ### REST helper (`sendCommandJson`, script.js 857-883) -/

/-- Parsed JSON body of a POST response: HTTP success flag (`res.ok`) and
the optional `message` / `error` fields. -/
structure ApiResp where
  ok : Bool
  message : Option String
  error : Option String
deriving Repr, DecidableEq

/-- Observable outcome of one `sendCommandJson(path, payload)` call. -/
structure SendResult where
  requestedPath : String
  spoken : List String
  statusShown : List (String × String)
  refreshed : Bool
  returned : Option ApiResp
deriving Repr, DecidableEq

/-- `sendCommandJson` as a pure function of the network outcome.
`resp = none` models the `fetch`/`json()` promise rejecting (the `catch`
branch); `some r` models a parsed response with HTTP status `r.ok`.
The function is total: every failure is converted into an effect record,
mirroring the try/catch that keeps errors from propagating.  On success
the `message` is spoken (when present) and only then is the task list
refreshed, matching the statement order in the source. -/
def sendCommandJson (path : String) (resp : Option ApiResp) : SendResult :=
  match resp with
  | none =>
    ⟨path, ["Network error."], [("Network error.", "red")], false, none⟩
  | some r =>
    if r.ok = false then
      let e := r.error.getD "Unknown error"
      ⟨path, [e], [(e, "red")], false, none⟩
    else
      ⟨path, (match r.message with | some m => [m] | none => []), [], true, some r⟩

/-! ### Confirmation-reply classification (script.js 356-378) -/

/-- Resolution of one confirmation-session transcript. -/
inductive CDecision
  | accept
  | decline
  | retry
deriving Repr, DecidableEq

/-- The `confirmRecognition.onresult` classifier, applied to the
lowercased and trimmed transcript: `includes("confirm")`,
`=== "yes"` (exact), `includes("yeah")`, `includes("sure")` accept;
otherwise `includes("cancel")`, `includes("no")`, `includes("nope")`
decline; anything else re-prompts. -/
def confirmDecision (t : String) : CDecision :=
  if strIncludes t "confirm" || t == "yes" || strIncludes t "yeah" || strIncludes t "sure" then
    .accept
  else if strIncludes t "cancel" || strIncludes t "no" || strIncludes t "nope" then
    .decline
  else .retry

/-! ### The session state machine

The script is single-threaded and event-driven.  Each DOM / speech event
handler runs atomically; deferred work (a `SpeechSynthesisUtterance`
completion, a `setTimeout(startWakeRecognition, …)`) is recorded in the
state and fired by later events.  A recognition session is modelled as
*actively capturing* from a successful `start()` until `stop()` is called
or its end event fires — i.e. `stop()` takes effect immediately, exactly
the accounting the source keeps in its own `wakeRunning` flag.  The
platform `onend` event still fires after a `stop()`, so a separate
`…EndPending` flag tracks it.  An `onerror` event is modelled as the
platform aborting capture (the session stops capturing, its `onend` is
still pending).  `synth.cancel()` inside `speak` discards the queued
utterances together with their completion callbacks: a cancelled prompt
never invokes its callback.  Backend responses are modelled separately by
the pure `sendCommandJson`; their spoken feedback starts no session and
is omitted from the orchestration state.  The per-dialog
`confirmRecognition` objects are modelled as one session slot. -/

/-- Completion callbacks attached to utterances: start the command
session (the wake-flow `"Yes?"` prompt) or the confirmation session
(the dialog prompt and the re-prompt). -/
inductive Cb
  | startCommand
  | startConfirm
deriving Repr, DecidableEq

/-- A queued utterance: its text and optional completion callback. -/
structure Utt where
  text : String
  cb : Option Cb
deriving Repr, DecidableEq

/-- The global mutable state of the script that the orchestration uses. -/
structure OState where
  listening : Bool
  inCommandMode : Bool
  inConfirmDialog : Bool
  wakeRunning : Bool
  wakeEndPending : Bool
  cmdActive : Bool
  cmdEndPending : Bool
  confActive : Bool
  confEndPending : Bool
  ttsQueue : List Utt
  wakeTimers : Nat
  dialogAction : Option DialogKind
  postsLog : List PostReq
  spokenLog : List String
deriving Repr, DecidableEq

/-- The `speak(text, onEnd)` helper: `synth.cancel()` discards the queued
utterances (and their callbacks), then the new utterance is queued. -/
def speak (text : String) (onEnd : Option Cb) (s : OState) : OState :=
  { s with ttsQueue := [⟨text, onEnd⟩], spokenLog := s.spokenLog ++ [text] }

/-- The wake-detected flow speaks `"Yes?"` through `synth.speak` directly,
without the helper and hence without cancelling queued speech. -/
def speakRaw (text : String) (onEnd : Option Cb) (s : OState) : OState :=
  { s with ttsQueue := s.ttsQueue ++ [⟨text, onEnd⟩], spokenLog := s.spokenLog ++ [text] }

/-- `startWakeRecognition()` (script.js 1248-1258): guarded only by the
`wakeRunning` flag and `listening`. -/
def startWakeRecognition (s : OState) : OState :=
  if !s.wakeRunning && s.listening then
    { s with wakeRunning := true, wakeEndPending := true }
  else s

/-- `stopWakeRecognition()` (script.js 1263-1271): requests cessation and
clears the flag; the platform end event is still pending. -/
def stopWakeRecognition (s : OState) : OState :=
  if s.wakeRunning then { s with wakeRunning := false } else s

/-- `commandRecognition.stop()` wrapped in try/catch. -/
def stopCommandRecognition (s : OState) : OState :=
  if s.cmdActive then { s with cmdActive := false } else s

/-- `closeConfirmDialog()` (script.js 416-432): hide the overlay, stop and
discard the confirmation session, clear the flag, and — when listening —
schedule a deferred wake restart. -/
def closeConfirmDialog (s : OState) : OState :=
  { s with
    confActive := false
    inConfirmDialog := false
    wakeTimers := if s.listening then s.wakeTimers + 1 else s.wakeTimers }

/-- `handleConfirmYes()` (script.js 437-443): close, then run the stored
`onConfirm` action, which posts the dialog request. -/
def handleConfirmYes (s : OState) : OState :=
  let s2 := closeConfirmDialog s
  { s2 with
    postsLog := s2.postsLog ++ ((s2.dialogAction.map fun k => [dialogConfirmPost k]).getD []) }

/-- `handleConfirmCancel()` (script.js 448-455): close, speak the
cancellation, run the (no-op) `onCancel`. -/
def handleConfirmCancel (s : OState) : OState :=
  speak "Okay, I cancelled that action." none (closeConfirmDialog s)

/-- `openConfirmDialog(message, onConfirm, onCancel, voicePrompt)`
(script.js 331-410): set the open flag, store the action, stop the wake
and command sessions, then speak the voice prompt (or the message when
absent) with `startConfirmRecognition` as its completion callback. -/
def openConfirmDialog (k : DialogKind) (s : OState) : OState :=
  speak ((dialogVoicePrompt k).getD (dialogMessage k)) (some .startConfirm)
    (stopCommandRecognition (stopWakeRecognition
      { s with inConfirmDialog := true, dialogAction := some k }))

/-- Run an utterance completion callback: `commandRecognition.start()`
(uncaught if already running, modelled as a no-op) or
`startConfirmRecognition` which creates and starts the confirmation
session (a failing `start()` is caught). -/
def applyCb : Cb → OState → OState
  | .startCommand, s =>
    if s.cmdActive then s else { s with cmdActive := true, cmdEndPending := true }
  | .startConfirm, s =>
    if s.confActive then s else { s with confActive := true, confEndPending := true }

/-- Apply the effects of one `processCommand` call to the orchestration
state: each spoken text is a `speak` call, posts are dispatched, and a
destructive branch opens the confirmation dialog. -/
def applyCmdEff (eff : CmdEff) (s : OState) : OState :=
  let s1 := eff.spoken.foldl (fun st t => speak t none st) s
  let s2 := { s1 with postsLog := s1.postsLog ++ eff.posts }
  match eff.dialog with
  | some k => openConfirmDialog k s2
  | none => s2

/-- Events the orchestration reacts to: recognition results / ends /
errors of the three sessions, utterance completions, the deferred wake
restart timers, and the user-facing controls.  Button events carry the
DOM constraint that the confirmation overlay covers the page while the
dialog is open: the mute and clear buttons are only clickable when no
dialog is open, the dialog buttons only when it is. -/
inductive Event
  | wakeResult (t : String)
  | wakeEnd
  | cmdResult (t : String)
  | cmdEnd
  | cmdError
  | confResult (t : String)
  | confEnd
  | ttsEnd
  | wakeTimer
  | muteToggle
  | clearBtnClick
  | confYesClick
  | confNoClick
deriving Repr, DecidableEq

/-- One atomic event-handler execution.  Events whose platform
precondition does not hold (a result from a session that is not
capturing, an end without a pending end, a pop of an empty speech queue,
a blocked button) leave the state unchanged.  `env` is the backend
response used by the listing helpers of `processCommand`. -/
def stepD (env : List Task) (e : Event) (s : OState) : OState :=
  match e with
  | .wakeResult t =>
    if s.wakeRunning then
      if wakeWordHeard (strTrim t) && !s.inCommandMode && !s.inConfirmDialog then
        speakRaw "Yes?" (some .startCommand)
          (stopWakeRecognition { s with inCommandMode := true })
      else s
    else s
  | .wakeEnd =>
    if s.wakeEndPending then
      let s2 := { s with wakeRunning := false, wakeEndPending := false }
      if !s2.inCommandMode && s2.listening && !s2.inConfirmDialog then
        { s2 with wakeTimers := s2.wakeTimers + 1 }
      else s2
    else s
  | .cmdResult t =>
    if s.cmdActive then applyCmdEff (processCommand (some t) env) s else s
  | .cmdEnd =>
    if s.cmdEndPending then
      let s2 := { s with cmdActive := false, cmdEndPending := false, inCommandMode := false }
      if s2.listening && !s2.inConfirmDialog then
        { s2 with wakeTimers := s2.wakeTimers + 1 }
      else s2
    else s
  | .cmdError =>
    if s.cmdEndPending then
      let s2 := { s with cmdActive := false, inCommandMode := false }
      if !s2.inConfirmDialog then startWakeRecognition s2 else s2
    else s
  | .confResult t =>
    if s.confActive then
      match confirmDecision (strTrim (strToLower t)) with
      | .accept => handleConfirmYes s
      | .decline => handleConfirmCancel s
      | .retry => speak "I did not catch that. Can you repeat?" (some .startConfirm) s
    else s
  | .confEnd =>
    if s.confEndPending then
      let s2 := { s with confActive := false, confEndPending := false }
      if s2.inConfirmDialog then
        { s2 with confActive := true, confEndPending := true }
      else s2
    else s
  | .ttsEnd =>
    match s.ttsQueue with
    | [] => s
    | u :: rest =>
      let s2 := { s with ttsQueue := rest }
      match u.cb with
      | none => s2
      | some c => applyCb c s2
  | .wakeTimer =>
    match s.wakeTimers with
    | 0 => s
    | n + 1 => startWakeRecognition { s with wakeTimers := n }
  | .muteToggle =>
    if s.inConfirmDialog then s
    else if s.listening then
      stopCommandRecognition (stopWakeRecognition { s with listening := false })
    else
      startWakeRecognition { s with listening := true }
  | .clearBtnClick =>
    if s.inConfirmDialog then s else openConfirmDialog .clearAll s
  | .confYesClick =>
    if s.inConfirmDialog then handleConfirmYes s else s
  | .confNoClick =>
    if s.inConfirmDialog then handleConfirmCancel s else s

/-- Run a list of events (arbitrary interleaving of deferred callbacks). -/
def runD (env : List Task) (tr : List Event) (s : OState) : OState :=
  tr.foldl (fun st e => stepD env e st) s

/-- The state right after the script initializes: listening, wake session
started, nothing else active. -/
def initState : OState :=
  ⟨true, false, false, true, true, false, false, false, false, [], 0, none, [], []⟩

/-! ### Eager semantics

`stepE` runs one external event and then immediately fires every deferred
activation it left behind: first the queued utterance completions, then
the scheduled wake-restart timers.  This is the semantics in which each
deferred callback fires before the next external event arrives. -/

/-- Fire the completion callbacks of a drained utterance queue in order. -/
def drainQueue : List Utt → OState → OState
  | [], s => s
  | u :: rest, s =>
    drainQueue rest (match u.cb with | none => s | some c => applyCb c s)

/-- Fire `n` pending wake-restart timers. -/
def fireTimers : Nat → OState → OState
  | 0, s => s
  | n + 1, s => fireTimers n (startWakeRecognition s)

/-- Empty the utterance queue, firing each completion callback. -/
def drainTTSAll (s : OState) : OState :=
  drainQueue s.ttsQueue { s with ttsQueue := [] }

/-- Fire every scheduled wake-restart timer. -/
def fireAllTimers (s : OState) : OState :=
  fireTimers s.wakeTimers { s with wakeTimers := 0 }

/-- One external event followed by all deferred activations it scheduled. -/
def stepE (env : List Task) (e : Event) (s : OState) : OState :=
  fireAllTimers (drainTTSAll (stepD env e s))

/-- Run a list of external events under the eager semantics. -/
def runE (env : List Task) (tr : List Event) (s : OState) : OState :=
  tr.foldl (fun st e => stepE env e st) s

/-- At most one of the three recognition sessions is actively capturing. -/
def AtMostOneSession (s : OState) : Prop :=
  ¬(s.wakeRunning = true ∧ s.cmdActive = true) ∧
  ¬(s.wakeRunning = true ∧ s.confActive = true) ∧
  ¬(s.cmdActive = true ∧ s.confActive = true)

instance (s : OState) : Decidable (AtMostOneSession s) := by
  unfold AtMostOneSession; infer_instance

/-- Inductive invariant of the eager semantics. -/
def InvE (s : OState) : Prop :=
  AtMostOneSession s ∧
  (s.cmdActive = true → s.inCommandMode = true) ∧
  (s.confActive = true → s.inConfirmDialog = true) ∧
  (s.listening = false → s.wakeRunning = false ∧ s.cmdActive = false) ∧
  (s.inConfirmDialog = true → s.wakeRunning = false ∧ s.cmdActive = false) ∧
  s.ttsQueue = [] ∧ s.wakeTimers = 0

instance (s : OState) : Decidable (InvE s) := by
  unfold InvE AtMostOneSession; infer_instance

/-- Two states agree on everything the session logic reads (all fields
except the speech queue and the two logs). -/
def sameCore (a b : OState) : Prop :=
  a.listening = b.listening ∧ a.inCommandMode = b.inCommandMode ∧
  a.inConfirmDialog = b.inConfirmDialog ∧ a.wakeRunning = b.wakeRunning ∧
  a.wakeEndPending = b.wakeEndPending ∧ a.cmdActive = b.cmdActive ∧
  a.cmdEndPending = b.cmdEndPending ∧ a.confActive = b.confActive ∧
  a.confEndPending = b.confEndPending ∧ a.wakeTimers = b.wakeTimers ∧
  a.dialogAction = b.dialogAction

/-- Invariant of the interleaved semantics: the only utterance ever
queued with the `startCommand` callback is the wake-flow prompt. -/
def YesQueueOk (s : OState) : Prop :=
  ∀ u ∈ s.ttsQueue, u.cb = some Cb.startCommand → u.text = "Yes?"

/-- After the mute toggle: muted, wake and command sessions stopped and
speech queue empty (so nothing pending can start the command session). -/
def MutedQuiet (s : OState) : Prop :=
  s.listening = false ∧ s.wakeRunning = false ∧ s.cmdActive = false ∧
  s.ttsQueue = []

/-! ### Structural lemmas about the transition system -/

theorem sameCore_refl (a : OState) : sameCore a a := by
  unfold sameCore; tauto

theorem sameCore_trans {a b c : OState} (h1 : sameCore a b) (h2 : sameCore b c) :
    sameCore a c := by
  unfold sameCore at *
  obtain ⟨x1, x2, x3, x4, x5, x6, x7, x8, x9, x10, x11⟩ := h1
  obtain ⟨y1, y2, y3, y4, y5, y6, y7, y8, y9, y10, y11⟩ := h2
  exact ⟨x1.trans y1, x2.trans y2, x3.trans y3, x4.trans y4, x5.trans y5,
    x6.trans y6, x7.trans y7, x8.trans y8, x9.trans y9, x10.trans y10, x11.trans y11⟩

theorem speak_sameCore (t : String) (cb : Option Cb) (s : OState) :
    sameCore (speak t cb s) s := by
  unfold sameCore speak; tauto

theorem foldl_speak_sameCore (l : List String) (s : OState) :
    sameCore (l.foldl (fun st t => speak t none st) s) s := by
  induction l generalizing s with
  | nil => exact sameCore_refl s
  | cons t rest ih =>
    exact sameCore_trans (ih (speak t none s)) (speak_sameCore t none s)

theorem foldl_speak_queue (l : List String) (s : OState) :
    (l.foldl (fun st t => speak t none st) s).ttsQueue = s.ttsQueue ∨
    ∀ u ∈ (l.foldl (fun st t => speak t none st) s).ttsQueue, u.cb = none := by
  induction l generalizing s with
  | nil => exact Or.inl rfl
  | cons t rest ih =>
    rcases ih (speak t none s) with h | h
    · right
      rw [List.foldl_cons, h]
      intro u hu
      simp only [speak, List.mem_singleton] at hu
      rw [hu]
    · right
      exact h

theorem drainQueue_of_none (q : List Utt) (s : OState)
    (h : ∀ u ∈ q, u.cb = none) : drainQueue q s = s := by
  induction q with
  | nil => rfl
  | cons u rest ih =>
    have hu : u.cb = none := h u (by simp)
    simp only [drainQueue, hu]
    exact ih fun v hv => h v (by simp [hv])

theorem applyCb_queue (c : Cb) (s : OState) :
    (applyCb c s).ttsQueue = s.ttsQueue := by
  cases c <;> simp only [applyCb] <;> split <;> rfl

theorem drainQueue_queue (q : List Utt) (s : OState) :
    (drainQueue q s).ttsQueue = s.ttsQueue := by
  induction q generalizing s with
  | nil => rfl
  | cons u rest ih =>
    cases hc : u.cb with
    | none => simp only [drainQueue, hc]; exact ih _
    | some c =>
      simp only [drainQueue, hc]
      rw [ih, applyCb_queue]

theorem fireTimers_queue (n : Nat) (s : OState) :
    (fireTimers n s).ttsQueue = s.ttsQueue := by
  induction n generalizing s with
  | zero => rfl
  | succ k ih =>
    rw [fireTimers, ih]
    unfold startWakeRecognition
    split <;> rfl

theorem drainTTSAll_of_nil {s : OState} (h5 : s.ttsQueue = []) : drainTTSAll s = s := by
  unfold drainTTSAll
  rw [h5]
  simp only [drainQueue]
  rw [← h5]

theorem fireAllTimers_of_zero {s : OState} (h6 : s.wakeTimers = 0) : fireAllTimers s = s := by
  unfold fireAllTimers
  rw [h6]
  simp only [fireTimers]
  rw [← h6]

theorem stepE_eq_of_id {env : List Task} {e : Event} {s : OState}
    (hid : stepD env e s = s) (h5 : s.ttsQueue = []) (h6 : s.wakeTimers = 0) :
    stepE env e s = s := by
  unfold stepE
  rw [hid, drainTTSAll_of_nil h5, fireAllTimers_of_zero h6]

theorem fireTimers_zero (s : OState) : fireTimers 0 s = s := rfl

theorem fireTimers_add_one (n : Nat) (s : OState) :
    fireTimers (n + 1) s = fireTimers n (startWakeRecognition s) := rfl

theorem stepE_queue_nil (env : List Task) (e : Event) (s : OState) :
    (stepE env e s).ttsQueue = [] := by
  unfold stepE fireAllTimers drainTTSAll
  rw [fireTimers_queue, drainQueue_queue]

theorem bfalse_of_not_and {a b : Bool} (h : ¬(a = true ∧ b = true)) (ha : a = true) :
    b = false := by
  cases b with
  | false => rfl
  | true => exact absurd ⟨ha, rfl⟩ h

theorem bfalse_of_not_and2 {a b : Bool} (h : ¬(a = true ∧ b = true)) (hb : b = true) :
    a = false := by
  cases a with
  | false => rfl
  | true => exact absurd ⟨rfl, hb⟩ h

theorem bfalse_of_imp {a b : Bool} (h : a = true → b = true) (hb : b = false) :
    a = false := by
  cases ha : a with
  | false => rfl
  | true => rw [h ha] at hb; cases hb

set_option maxHeartbeats 1000000 in
theorem invE_stepE (env : List Task) (e : Event) (s : OState) (h : InvE s) :
    InvE (stepE env e s) := by
  obtain ⟨⟨h11, h12, h13⟩, h2, h3, h4, h7, h5, h6⟩ := h
  have k11c : s.wakeRunning = true → s.cmdActive = false := bfalse_of_not_and h11
  have k11w : s.cmdActive = true → s.wakeRunning = false := bfalse_of_not_and2 h11
  have k12c : s.wakeRunning = true → s.confActive = false := bfalse_of_not_and h12
  have k13c : s.cmdActive = true → s.confActive = false := bfalse_of_not_and h13
  have k4w : s.listening = false → s.wakeRunning = false := fun hx => (h4 hx).1
  have k4c : s.listening = false → s.cmdActive = false := fun hx => (h4 hx).2
  have k7w : s.inConfirmDialog = true → s.wakeRunning = false := fun hx => (h7 hx).1
  have k7c : s.inConfirmDialog = true → s.cmdActive = false := fun hx => (h7 hx).2
  cases e with
  | wakeResult t =>
    by_cases hw : s.wakeRunning = true
    · by_cases hww : wakeWordHeard (strTrim t) = true
      · by_cases hm : s.inCommandMode = true
        · have hid : stepD env (.wakeResult t) s = s := by simp [stepD, hw, hww, hm]
          rw [stepE_eq_of_id hid h5 h6]
          exact ⟨⟨h11, h12, h13⟩, h2, h3, h4, h7, h5, h6⟩
        · by_cases hdlg : s.inConfirmDialog = true
          · have hid : stepD env (.wakeResult t) s = s := by simp [stepD, hw, hww, hdlg]
            rw [stepE_eq_of_id hid h5 h6]
            exact ⟨⟨h11, h12, h13⟩, h2, h3, h4, h7, h5, h6⟩
          · simp only [Bool.not_eq_true] at hm hdlg
            have hcmd : s.cmdActive = false := k11c hw
            have hconf : s.confActive = false := k12c hw
            have hl : s.listening = true := by
              cases hls : s.listening with
              | true => rfl
              | false => rw [k4w hls] at hw; cases hw
            simp only [stepE, stepD, hw, hww, hm, hdlg, h5, h6, speakRaw,
              stopWakeRecognition, drainTTSAll, drainQueue, applyCb, fireAllTimers,
              fireTimers_zero, fireTimers_add_one, startWakeRecognition]
            simp only [InvE, AtMostOneSession]
            simp [fireTimers_zero, fireTimers_add_one, startWakeRecognition,
              drainQueue, applyCb, hw, hww, hm, hdlg, hcmd, hconf, hl]
      · have hid : stepD env (.wakeResult t) s = s := by simp [stepD, hw, hww]
        rw [stepE_eq_of_id hid h5 h6]
        exact ⟨⟨h11, h12, h13⟩, h2, h3, h4, h7, h5, h6⟩
    · simp only [Bool.not_eq_true] at hw
      have hid : stepD env (.wakeResult t) s = s := by simp [stepD, hw]
      rw [stepE_eq_of_id hid h5 h6]
      exact ⟨⟨h11, h12, h13⟩, h2, h3, h4, h7, h5, h6⟩
  | wakeEnd =>
    by_cases hp : s.wakeEndPending = true
    · by_cases hm : s.inCommandMode = true
      · simp only [stepE, stepD, hp, hm, h5, h6, drainTTSAll, drainQueue, fireAllTimers,
          fireTimers_zero, fireTimers_add_one, startWakeRecognition]
        simp only [InvE, AtMostOneSession]
        simp [fireTimers_zero, fireTimers_add_one, startWakeRecognition,
          drainQueue, applyCb, hp, hm]
        try exact ⟨k13c, h3, k4c, k7c⟩
      · by_cases hdlg : s.inConfirmDialog = true
        · simp only [Bool.not_eq_true] at hm
          have hcmd : s.cmdActive = false := k7c hdlg
          simp only [stepE, stepD, hp, hm, hdlg, h5, h6, drainTTSAll, drainQueue,
            fireAllTimers, fireTimers_zero, fireTimers_add_one, startWakeRecognition]
          simp only [InvE, AtMostOneSession]
          simp [fireTimers_zero, fireTimers_add_one, startWakeRecognition,
            drainQueue, applyCb, hm, hdlg, hcmd]
          try exact h3
        · by_cases hls : s.listening = true
          · simp only [Bool.not_eq_true] at hm hdlg
            have hcmd : s.cmdActive = false := bfalse_of_imp h2 hm
            have hconf : s.confActive = false := bfalse_of_imp h3 hdlg
            simp only [stepE, stepD, hp, hm, hdlg, hls, h5, h6, drainTTSAll, drainQueue,
              fireAllTimers, fireTimers_zero, fireTimers_add_one, startWakeRecognition]
            simp only [InvE, AtMostOneSession]
            simp [fireTimers_zero, fireTimers_add_one, startWakeRecognition,
              drainQueue, applyCb, hm, hdlg, hls, hcmd, hconf]
          · simp only [Bool.not_eq_true] at hm hdlg hls
            have hcmd : s.cmdActive = false := k4c hls
            have hconf : s.confActive = false := bfalse_of_imp h3 hdlg
            simp only [stepE, stepD, hp, hm, hdlg, hls, h5, h6, drainTTSAll, drainQueue,
              fireAllTimers, fireTimers_zero, fireTimers_add_one, startWakeRecognition]
            simp only [InvE, AtMostOneSession]
            simp [fireTimers_zero, fireTimers_add_one, startWakeRecognition,
              drainQueue, applyCb, hm, hdlg, hls, hcmd, hconf]
    · simp only [Bool.not_eq_true] at hp
      have hid : stepD env .wakeEnd s = s := by simp [stepD, hp]
      rw [stepE_eq_of_id hid h5 h6]
      exact ⟨⟨h11, h12, h13⟩, h2, h3, h4, h7, h5, h6⟩
  | cmdEnd =>
    by_cases hp : s.cmdEndPending = true
    · by_cases hls : s.listening = true
      · by_cases hdlg : s.inConfirmDialog = true
        · have hwk : s.wakeRunning = false := k7w hdlg
          simp only [stepE, stepD, hp, hls, hdlg, hwk, h5, h6, drainTTSAll, drainQueue,
            fireAllTimers, fireTimers_zero, fireTimers_add_one, startWakeRecognition]
          simp only [InvE, AtMostOneSession]
          simp [fireTimers_zero, fireTimers_add_one, startWakeRecognition,
            drainQueue, applyCb, hls, hdlg, hwk]
        · simp only [Bool.not_eq_true] at hdlg
          have hconf : s.confActive = false := bfalse_of_imp h3 hdlg
          by_cases hw : s.wakeRunning = true
          · simp only [stepE, stepD, hp, hls, hdlg, hw, h5, h6, drainTTSAll, drainQueue,
              fireAllTimers, fireTimers_zero, fireTimers_add_one, startWakeRecognition]
            simp only [InvE, AtMostOneSession]
            simp [fireTimers_zero, fireTimers_add_one, startWakeRecognition,
              drainQueue, applyCb, hls, hdlg, hw, hconf]
          · simp only [Bool.not_eq_true] at hw
            simp only [stepE, stepD, hp, hls, hdlg, hw, h5, h6, drainTTSAll, drainQueue,
              fireAllTimers, fireTimers_zero, fireTimers_add_one, startWakeRecognition]
            simp only [InvE, AtMostOneSession]
            simp [fireTimers_zero, fireTimers_add_one, startWakeRecognition,
              drainQueue, applyCb, hls, hdlg, hw, hconf]
      · simp only [Bool.not_eq_true] at hls
        have hwk : s.wakeRunning = false := k4w hls
        simp only [stepE, stepD, hp, hls, hwk, h5, h6, drainTTSAll, drainQueue,
          fireAllTimers, fireTimers_zero, fireTimers_add_one, startWakeRecognition]
        simp only [InvE, AtMostOneSession]
        simp [fireTimers_zero, fireTimers_add_one, startWakeRecognition,
          drainQueue, applyCb, hls, hwk]
        try exact h3
    · simp only [Bool.not_eq_true] at hp
      have hid : stepD env .cmdEnd s = s := by simp [stepD, hp]
      rw [stepE_eq_of_id hid h5 h6]
      exact ⟨⟨h11, h12, h13⟩, h2, h3, h4, h7, h5, h6⟩
  | cmdError =>
    by_cases hp : s.cmdEndPending = true
    · by_cases hdlg : s.inConfirmDialog = true
      · have hwk : s.wakeRunning = false := k7w hdlg
        simp only [stepE, stepD, hp, hdlg, hwk, h5, h6, drainTTSAll, drainQueue,
          fireAllTimers, fireTimers_zero, fireTimers_add_one, startWakeRecognition]
        simp only [InvE, AtMostOneSession]
        simp [fireTimers_zero, fireTimers_add_one, startWakeRecognition,
          drainQueue, applyCb, hdlg, hwk]
      · simp only [Bool.not_eq_true] at hdlg
        have hconf : s.confActive = false := bfalse_of_imp h3 hdlg
        by_cases hw : s.wakeRunning = true
        · have hl : s.listening = true := by
            cases hls : s.listening with
            | true => rfl
            | false => rw [k4w hls] at hw; cases hw
          simp only [stepE, stepD, hp, hdlg, hw, hl, h5, h6, drainTTSAll, drainQueue,
            fireAllTimers, fireTimers_zero, fireTimers_add_one, startWakeRecognition]
          simp only [InvE, AtMostOneSession]
          simp [fireTimers_zero, fireTimers_add_one, startWakeRecognition,
            drainQueue, applyCb, hdlg, hw, hl, hconf]
        · simp only [Bool.not_eq_true] at hw
          by_cases hls : s.listening = true
          · simp only [stepE, stepD, hp, hdlg, hw, hls, h5, h6, drainTTSAll, drainQueue,
              fireAllTimers, fireTimers_zero, fireTimers_add_one, startWakeRecognition]
            simp only [InvE, AtMostOneSession]
            simp [fireTimers_zero, fireTimers_add_one, startWakeRecognition,
              drainQueue, applyCb, hdlg, hw, hls, hconf]
          · simp only [Bool.not_eq_true] at hls
            simp only [stepE, stepD, hp, hdlg, hw, hls, h5, h6, drainTTSAll, drainQueue,
              fireAllTimers, fireTimers_zero, fireTimers_add_one, startWakeRecognition]
            simp only [InvE, AtMostOneSession]
            simp [fireTimers_zero, fireTimers_add_one, startWakeRecognition,
              drainQueue, applyCb, hdlg, hw, hls, hconf]
    · simp only [Bool.not_eq_true] at hp
      have hid : stepD env .cmdError s = s := by simp [stepD, hp]
      rw [stepE_eq_of_id hid h5 h6]
      exact ⟨⟨h11, h12, h13⟩, h2, h3, h4, h7, h5, h6⟩
  | ttsEnd =>
    have hid : stepD env .ttsEnd s = s := by simp [stepD, h5]
    rw [stepE_eq_of_id hid h5 h6]
    exact ⟨⟨h11, h12, h13⟩, h2, h3, h4, h7, h5, h6⟩
  | wakeTimer =>
    have hid : stepD env .wakeTimer s = s := by simp [stepD, h6]
    rw [stepE_eq_of_id hid h5 h6]
    exact ⟨⟨h11, h12, h13⟩, h2, h3, h4, h7, h5, h6⟩
  | muteToggle =>
    by_cases hdlg : s.inConfirmDialog = true
    · have hid : stepD env .muteToggle s = s := by simp [stepD, hdlg]
      rw [stepE_eq_of_id hid h5 h6]
      exact ⟨⟨h11, h12, h13⟩, h2, h3, h4, h7, h5, h6⟩
    · simp only [Bool.not_eq_true] at hdlg
      have hconf : s.confActive = false := bfalse_of_imp h3 hdlg
      by_cases hls : s.listening = true
      · by_cases hw : s.wakeRunning = true
        · have hcmd : s.cmdActive = false := k11c hw
          simp only [stepE, stepD, hdlg, hls, hw, hcmd, h5, h6, drainTTSAll, drainQueue,
            fireAllTimers, fireTimers_zero, fireTimers_add_one, startWakeRecognition,
            stopWakeRecognition, stopCommandRecognition]
          simp only [InvE, AtMostOneSession]
          simp [fireTimers_zero, fireTimers_add_one, startWakeRecognition,
            drainQueue, applyCb, hdlg, hls, hw, hcmd, hconf]
        · simp only [Bool.not_eq_true] at hw
          by_cases hcmd : s.cmdActive = true
          · simp only [stepE, stepD, hdlg, hls, hw, hcmd, h5, h6, drainTTSAll, drainQueue,
              fireAllTimers, fireTimers_zero, fireTimers_add_one, startWakeRecognition,
              stopWakeRecognition, stopCommandRecognition]
            simp only [InvE, AtMostOneSession]
            simp [fireTimers_zero, fireTimers_add_one, startWakeRecognition,
              drainQueue, applyCb, hdlg, hls, hw, hcmd, hconf]
          · simp only [Bool.not_eq_true] at hcmd
            simp only [stepE, stepD, hdlg, hls, hw, hcmd, h5, h6, drainTTSAll, drainQueue,
              fireAllTimers, fireTimers_zero, fireTimers_add_one, startWakeRecognition,
              stopWakeRecognition, stopCommandRecognition]
            simp only [InvE, AtMostOneSession]
            simp [fireTimers_zero, fireTimers_add_one, startWakeRecognition,
              drainQueue, applyCb, hdlg, hls, hw, hcmd, hconf]
      · simp only [Bool.not_eq_true] at hls
        have hw : s.wakeRunning = false := k4w hls
        have hcmd : s.cmdActive = false := k4c hls
        simp only [stepE, stepD, hdlg, hls, hw, hcmd, h5, h6, drainTTSAll, drainQueue,
          fireAllTimers, fireTimers_zero, fireTimers_add_one, startWakeRecognition]
        simp only [InvE, AtMostOneSession]
        simp [fireTimers_zero, fireTimers_add_one, startWakeRecognition,
          drainQueue, applyCb, hdlg, hls, hw, hcmd, hconf]
  | clearBtnClick =>
    by_cases hdlg : s.inConfirmDialog = true
    · have hid : stepD env .clearBtnClick s = s := by simp [stepD, hdlg]
      rw [stepE_eq_of_id hid h5 h6]
      exact ⟨⟨h11, h12, h13⟩, h2, h3, h4, h7, h5, h6⟩
    · simp only [Bool.not_eq_true] at hdlg
      have hconf : s.confActive = false := bfalse_of_imp h3 hdlg
      by_cases hw : s.wakeRunning = true
      · have hcmd : s.cmdActive = false := k11c hw
        simp only [stepE, stepD, hdlg, openConfirmDialog, speak, stopWakeRecognition,
          stopCommandRecognition, hw, hcmd, h5, h6, drainTTSAll, drainQueue, applyCb,
          fireAllTimers, fireTimers_zero, fireTimers_add_one, startWakeRecognition]
        simp only [InvE, AtMostOneSession]
        simp [fireTimers_zero, fireTimers_add_one, startWakeRecognition,
          drainQueue, applyCb, hdlg, hw, hcmd, hconf]
      · simp only [Bool.not_eq_true] at hw
        by_cases hcmd : s.cmdActive = true
        · simp only [stepE, stepD, hdlg, openConfirmDialog, speak, stopWakeRecognition,
            stopCommandRecognition, hw, hcmd, h5, h6, drainTTSAll, drainQueue, applyCb,
            fireAllTimers, fireTimers_zero, fireTimers_add_one, startWakeRecognition]
          simp only [InvE, AtMostOneSession]
          simp [fireTimers_zero, fireTimers_add_one, startWakeRecognition,
            drainQueue, applyCb, hdlg, hw, hcmd, hconf]
        · simp only [Bool.not_eq_true] at hcmd
          simp only [stepE, stepD, hdlg, openConfirmDialog, speak, stopWakeRecognition,
            stopCommandRecognition, hw, hcmd, h5, h6, drainTTSAll, drainQueue, applyCb,
            fireAllTimers, fireTimers_zero, fireTimers_add_one, startWakeRecognition]
          simp only [InvE, AtMostOneSession]
          simp [fireTimers_zero, fireTimers_add_one, startWakeRecognition,
            drainQueue, applyCb, hdlg, hw, hcmd, hconf]
  | confYesClick =>
    by_cases hdlg : s.inConfirmDialog = true
    · have hw : s.wakeRunning = false := k7w hdlg
      have hcmd : s.cmdActive = false := k7c hdlg
      by_cases hls : s.listening = true
      · simp only [stepE, stepD, hdlg, handleConfirmYes, closeConfirmDialog, hls, hw,
          hcmd, h5, h6, drainTTSAll, drainQueue, fireAllTimers, fireTimers_zero,
          fireTimers_add_one, startWakeRecognition]
        simp only [InvE, AtMostOneSession]
        simp [fireTimers_zero, fireTimers_add_one, startWakeRecognition,
          drainQueue, applyCb, hdlg, hls, hw, hcmd]
      · simp only [Bool.not_eq_true] at hls
        simp only [stepE, stepD, hdlg, handleConfirmYes, closeConfirmDialog, hls, hw,
          hcmd, h5, h6, drainTTSAll, drainQueue, fireAllTimers, fireTimers_zero,
          fireTimers_add_one, startWakeRecognition]
        simp only [InvE, AtMostOneSession]
        simp [fireTimers_zero, fireTimers_add_one, startWakeRecognition,
          drainQueue, applyCb, hdlg, hls, hw, hcmd]
    · have hid : stepD env .confYesClick s = s := by simp [stepD, hdlg]
      rw [stepE_eq_of_id hid h5 h6]
      exact ⟨⟨h11, h12, h13⟩, h2, h3, h4, h7, h5, h6⟩
  | confNoClick =>
    by_cases hdlg : s.inConfirmDialog = true
    · have hw : s.wakeRunning = false := k7w hdlg
      have hcmd : s.cmdActive = false := k7c hdlg
      by_cases hls : s.listening = true
      · simp only [stepE, stepD, hdlg, handleConfirmCancel, closeConfirmDialog, speak,
          hls, hw, hcmd, h5, h6, drainTTSAll, drainQueue, fireAllTimers, fireTimers_zero,
          fireTimers_add_one, startWakeRecognition]
        simp only [InvE, AtMostOneSession]
        simp [fireTimers_zero, fireTimers_add_one, startWakeRecognition,
          drainQueue, applyCb, hdlg, hls, hw, hcmd]
      · simp only [Bool.not_eq_true] at hls
        simp only [stepE, stepD, hdlg, handleConfirmCancel, closeConfirmDialog, speak,
          hls, hw, hcmd, h5, h6, drainTTSAll, drainQueue, fireAllTimers, fireTimers_zero,
          fireTimers_add_one, startWakeRecognition]
        simp only [InvE, AtMostOneSession]
        simp [fireTimers_zero, fireTimers_add_one, startWakeRecognition,
          drainQueue, applyCb, hdlg, hls, hw, hcmd]
    · have hid : stepD env .confNoClick s = s := by simp [stepD, hdlg]
      rw [stepE_eq_of_id hid h5 h6]
      exact ⟨⟨h11, h12, h13⟩, h2, h3, h4, h7, h5, h6⟩
  | confEnd =>
    by_cases hp : s.confEndPending = true
    · by_cases hdlg : s.inConfirmDialog = true
      · have hw : s.wakeRunning = false := k7w hdlg
        have hcmd : s.cmdActive = false := k7c hdlg
        simp only [stepE, stepD, hp, hdlg, hw, hcmd, h5, h6, drainTTSAll, drainQueue,
          fireAllTimers, fireTimers_zero, fireTimers_add_one, startWakeRecognition]
        simp only [InvE, AtMostOneSession]
        simp [fireTimers_zero, fireTimers_add_one, startWakeRecognition,
          drainQueue, applyCb, hdlg, hw, hcmd]
      · simp only [Bool.not_eq_true] at hdlg
        simp only [stepE, stepD, hp, hdlg, h5, h6, drainTTSAll, drainQueue,
          fireAllTimers, fireTimers_zero, fireTimers_add_one, startWakeRecognition]
        simp only [InvE, AtMostOneSession]
        simp [fireTimers_zero, fireTimers_add_one, startWakeRecognition,
          drainQueue, applyCb, hdlg]
        try exact ⟨k11c, h2, h4⟩
    · simp only [Bool.not_eq_true] at hp
      have hid : stepD env .confEnd s = s := by simp [stepD, hp]
      rw [stepE_eq_of_id hid h5 h6]
      exact ⟨⟨h11, h12, h13⟩, h2, h3, h4, h7, h5, h6⟩
  | confResult t =>
    by_cases hcf : s.confActive = true
    · have hdlg : s.inConfirmDialog = true := h3 hcf
      have hw : s.wakeRunning = false := k7w hdlg
      have hcmd : s.cmdActive = false := k7c hdlg
      cases hdec : confirmDecision (strTrim (strToLower t)) with
      | accept =>
        by_cases hls : s.listening = true
        · simp only [stepE, stepD, hcf, hdec, handleConfirmYes, closeConfirmDialog, hls,
            hw, hcmd, h5, h6, drainTTSAll, drainQueue, fireAllTimers, fireTimers_zero,
            fireTimers_add_one, startWakeRecognition]
          simp only [InvE, AtMostOneSession]
          simp [fireTimers_zero, fireTimers_add_one, startWakeRecognition,
            drainQueue, applyCb, hls, hw, hcmd]
        · simp only [Bool.not_eq_true] at hls
          simp only [stepE, stepD, hcf, hdec, handleConfirmYes, closeConfirmDialog, hls,
            hw, hcmd, h5, h6, drainTTSAll, drainQueue, fireAllTimers, fireTimers_zero,
            fireTimers_add_one, startWakeRecognition]
          simp only [InvE, AtMostOneSession]
          simp [fireTimers_zero, fireTimers_add_one, startWakeRecognition,
            drainQueue, applyCb, hls, hw, hcmd]
      | decline =>
        by_cases hls : s.listening = true
        · simp only [stepE, stepD, hcf, hdec, handleConfirmCancel, closeConfirmDialog,
            speak, hls, hw, hcmd, h5, h6, drainTTSAll, drainQueue, fireAllTimers,
            fireTimers_zero, fireTimers_add_one, startWakeRecognition]
          simp only [InvE, AtMostOneSession]
          simp [fireTimers_zero, fireTimers_add_one, startWakeRecognition,
            drainQueue, applyCb, hls, hw, hcmd]
        · simp only [Bool.not_eq_true] at hls
          simp only [stepE, stepD, hcf, hdec, handleConfirmCancel, closeConfirmDialog,
            speak, hls, hw, hcmd, h5, h6, drainTTSAll, drainQueue, fireAllTimers,
            fireTimers_zero, fireTimers_add_one, startWakeRecognition]
          simp only [InvE, AtMostOneSession]
          simp [fireTimers_zero, fireTimers_add_one, startWakeRecognition,
            drainQueue, applyCb, hls, hw, hcmd]
      | retry =>
        simp only [stepE, stepD, hcf, hdec, speak, h5, h6, drainTTSAll, drainQueue,
          applyCb, fireAllTimers, fireTimers_zero, fireTimers_add_one,
          startWakeRecognition]
        simp only [InvE, AtMostOneSession]
        simp [fireTimers_zero, fireTimers_add_one, startWakeRecognition,
          drainQueue, applyCb, hcf, hw, hcmd, hdlg]
    · simp only [Bool.not_eq_true] at hcf
      have hid : stepD env (.confResult t) s = s := by simp [stepD, hcf]
      rw [stepE_eq_of_id hid h5 h6]
      exact ⟨⟨h11, h12, h13⟩, h2, h3, h4, h7, h5, h6⟩
  | cmdResult t =>
    by_cases hcm : s.cmdActive = true
    · have hw : s.wakeRunning = false := k11w hcm
      have hcf : s.confActive = false := k13c hcm
      have hl : s.listening = true := by
        cases hls : s.listening with
        | true => rfl
        | false => rw [k4c hls] at hcm; cases hcm
      have hmode : s.inCommandMode = true := h2 hcm
      have hdlg : s.inConfirmDialog = false := by
        cases hd : s.inConfirmDialog with
        | false => rfl
        | true => rw [k7c hd] at hcm; cases hcm
      have core := foldl_speak_sameCore (processCommand (some t) env).spoken s
      obtain ⟨c1, c2, c3, c4, c5, c6, c7, c8, c9, c10, c11⟩ := core
      have hq := foldl_speak_queue (processCommand (some t) env).spoken s
      cases hdl : (processCommand (some t) env).dialog with
      | none =>
        have hqn : ∀ u ∈ ((processCommand (some t) env).spoken.foldl
            (fun st t => speak t none st) s).ttsQueue, u.cb = none := by
          rcases hq with hq | hq
          · rw [hq, h5]; intro u hu; cases hu
          · exact hq
        simp only [stepE, stepD, hcm, if_true, applyCmdEff, hdl, drainTTSAll]
        rw [drainQueue_of_none _ _ hqn]
        simp only [fireAllTimers, c10, h6, fireTimers_zero]
        simp only [InvE, AtMostOneSession]
        simp [fireTimers_zero, fireTimers_add_one, startWakeRecognition,
          drainQueue, applyCb, c1, c2, c3, c4, c6, c8, hw, hcm, hcf, hl, hmode, hdlg]
      | some k =>
        simp only [stepE, stepD, hcm, if_true, applyCmdEff, hdl]
        simp only [openConfirmDialog, stopWakeRecognition, stopCommandRecognition]
        simp only [c1, c2, c3, c4, c5, c6, c7, c8, c9, c10, c11, hw, hcm, hcf, h6]
        simp only [Bool.false_eq_true, if_false, if_true, reduceIte, speak]
        simp only [drainTTSAll, drainQueue, applyCb, c8, hcf, fireAllTimers, c10, h6,
          fireTimers_zero, fireTimers_add_one, startWakeRecognition]
        simp only [InvE, AtMostOneSession]
        simp [fireTimers_zero, fireTimers_add_one, startWakeRecognition, drainQueue,
          applyCb, c1, c2, c3, hl, hw, hcm, hcf, hmode, hdlg]
    · simp only [Bool.not_eq_true] at hcm
      have hid : stepD env (.cmdResult t) s = s := by simp [stepD, hcm]
      rw [stepE_eq_of_id hid h5 h6]
      exact ⟨⟨h11, h12, h13⟩, h2, h3, h4, h7, h5, h6⟩


theorem invE_init : InvE initState := by decide

theorem invE_runE (env : List Task) (tr : List Event) (s : OState) (h : InvE s) :
    InvE (runE env tr s) := by
  induction tr generalizing s with
  | nil => exact h
  | cons e rest ih => exact ih (stepE env e s) (invE_stepE env e s h)

theorem speak_cmdActive (t : String) (cb : Option Cb) (s : OState) :
    (speak t cb s).cmdActive = s.cmdActive := rfl

theorem speak_confActive (t : String) (cb : Option Cb) (s : OState) :
    (speak t cb s).confActive = s.confActive := rfl

theorem speakRaw_cmdActive (t : String) (cb : Option Cb) (s : OState) :
    (speakRaw t cb s).cmdActive = s.cmdActive := rfl

theorem speakRaw_confActive (t : String) (cb : Option Cb) (s : OState) :
    (speakRaw t cb s).confActive = s.confActive := rfl

theorem stopWakeRecognition_cmdActive (s : OState) :
    (stopWakeRecognition s).cmdActive = s.cmdActive := by
  unfold stopWakeRecognition; split <;> rfl

theorem stopWakeRecognition_confActive (s : OState) :
    (stopWakeRecognition s).confActive = s.confActive := by
  unfold stopWakeRecognition; split <;> rfl

theorem stopCommandRecognition_cmdActive (s : OState) :
    (stopCommandRecognition s).cmdActive = false := by
  unfold stopCommandRecognition
  split
  · rfl
  · next h => simpa using h

theorem stopCommandRecognition_confActive (s : OState) :
    (stopCommandRecognition s).confActive = s.confActive := by
  unfold stopCommandRecognition; split <;> rfl

theorem startWakeRecognition_cmdActive (s : OState) :
    (startWakeRecognition s).cmdActive = s.cmdActive := by
  unfold startWakeRecognition; split <;> rfl

theorem startWakeRecognition_confActive (s : OState) :
    (startWakeRecognition s).confActive = s.confActive := by
  unfold startWakeRecognition; split <;> rfl

theorem closeConfirmDialog_cmdActive (s : OState) :
    (closeConfirmDialog s).cmdActive = s.cmdActive := rfl

theorem closeConfirmDialog_confActive (s : OState) :
    (closeConfirmDialog s).confActive = false := rfl

theorem handleConfirmYes_cmdActive (s : OState) :
    (handleConfirmYes s).cmdActive = s.cmdActive := rfl

theorem handleConfirmYes_confActive (s : OState) :
    (handleConfirmYes s).confActive = false := rfl

theorem handleConfirmCancel_cmdActive (s : OState) :
    (handleConfirmCancel s).cmdActive = s.cmdActive := rfl

theorem handleConfirmCancel_confActive (s : OState) :
    (handleConfirmCancel s).confActive = false := rfl

theorem openConfirmDialog_cmdActive (k : DialogKind) (s : OState) :
    (openConfirmDialog k s).cmdActive = false := by
  unfold openConfirmDialog
  rw [speak_cmdActive, stopCommandRecognition_cmdActive]

theorem openConfirmDialog_confActive (k : DialogKind) (s : OState) :
    (openConfirmDialog k s).confActive = s.confActive := by
  unfold openConfirmDialog
  rw [speak_confActive, stopCommandRecognition_confActive,
    stopWakeRecognition_confActive]

theorem applyCb_startConfirm_cmdActive (s : OState) :
    (applyCb .startConfirm s).cmdActive = s.cmdActive := by
  simp only [applyCb]
  split <;> rfl

theorem applyCmdEff_cmdActive (eff : CmdEff) (s : OState) :
    (applyCmdEff eff s).cmdActive = true → s.cmdActive = true := by
  intro hx
  have core := foldl_speak_sameCore eff.spoken s
  cases hdl : eff.dialog with
  | none =>
    simp only [applyCmdEff, hdl] at hx
    rw [← core.2.2.2.2.2.1]
    exact hx
  | some k =>
    simp only [applyCmdEff, hdl, openConfirmDialog_cmdActive] at hx
    cases hx

theorem applyCmdEff_confActive (eff : CmdEff) (s : OState) :
    (applyCmdEff eff s).confActive = s.confActive := by
  have core := foldl_speak_sameCore eff.spoken s
  cases hdl : eff.dialog with
  | none =>
    simp only [applyCmdEff, hdl]
    exact core.2.2.2.2.2.2.2.1
  | some k =>
    simp only [applyCmdEff, hdl, openConfirmDialog_confActive]
    exact core.2.2.2.2.2.2.2.1

theorem cmdActive_origin (env : List Task) (e : Event) (s : OState)
    (hx : (stepD env e s).cmdActive = true) :
    s.cmdActive = true ∨
    (e = .ttsEnd ∧ ∃ u rest, s.ttsQueue = u :: rest ∧ u.cb = some Cb.startCommand) := by
  cases e with
  | wakeResult t =>
    left
    simp only [stepD] at hx
    split at hx
    · split at hx
      · rw [speakRaw_cmdActive, stopWakeRecognition_cmdActive] at hx; exact hx
      · exact hx
    · exact hx
  | wakeEnd =>
    left
    simp only [stepD] at hx
    split at hx
    · split at hx <;> simpa using hx
    · exact hx
  | cmdResult t =>
    left
    simp only [stepD] at hx
    split at hx
    · next hc => exact applyCmdEff_cmdActive _ _ hx
    · exact hx
  | cmdEnd =>
    left
    simp only [stepD] at hx
    split at hx
    · split at hx <;> simp at hx
    · exact hx
  | cmdError =>
    left
    simp only [stepD] at hx
    split at hx
    · split at hx
      · rw [startWakeRecognition_cmdActive] at hx; cases hx
      · simp at hx
    · exact hx
  | confResult t =>
    left
    simp only [stepD] at hx
    split at hx
    · split at hx
      · rw [handleConfirmYes_cmdActive] at hx; exact hx
      · rw [handleConfirmCancel_cmdActive] at hx; exact hx
      · rw [speak_cmdActive] at hx; exact hx
    · exact hx
  | confEnd =>
    left
    simp only [stepD] at hx
    split at hx
    · split at hx <;> simpa using hx
    · exact hx
  | ttsEnd =>
    simp only [stepD] at hx
    cases hq : s.ttsQueue with
    | nil => rw [hq] at hx; exact Or.inl hx
    | cons u rest =>
      rw [hq] at hx
      cases hc : u.cb with
      | none => simp only [hc] at hx; exact Or.inl hx
      | some c =>
        simp only [hc] at hx
        cases c with
        | startCommand => exact Or.inr ⟨rfl, u, rest, rfl, hc⟩
        | startConfirm =>
          simp only [applyCb] at hx
          split at hx
          · exact Or.inl hx
          · exact Or.inl hx
  | wakeTimer =>
    left
    simp only [stepD] at hx
    split at hx
    · exact hx
    · rw [startWakeRecognition_cmdActive] at hx; exact hx
  | muteToggle =>
    left
    simp only [stepD] at hx
    split at hx
    · exact hx
    · split at hx
      · rw [stopCommandRecognition_cmdActive] at hx; cases hx
      · rw [startWakeRecognition_cmdActive] at hx; exact hx
  | clearBtnClick =>
    left
    simp only [stepD] at hx
    split at hx
    · exact hx
    · rw [openConfirmDialog_cmdActive] at hx; cases hx
  | confYesClick =>
    left
    simp only [stepD] at hx
    split at hx
    · rw [handleConfirmYes_cmdActive] at hx; exact hx
    · exact hx
  | confNoClick =>
    left
    simp only [stepD] at hx
    split at hx
    · rw [handleConfirmCancel_cmdActive] at hx; exact hx
    · exact hx


theorem applyCb_startCommand_confActive (s : OState) :
    (applyCb .startCommand s).confActive = s.confActive := by
  simp only [applyCb]
  split <;> rfl

theorem speak_queue (t : String) (cb : Option Cb) (s : OState) :
    (speak t cb s).ttsQueue = [⟨t, cb⟩] := rfl

theorem speakRaw_queue (t : String) (cb : Option Cb) (s : OState) :
    (speakRaw t cb s).ttsQueue = s.ttsQueue ++ [⟨t, cb⟩] := rfl

theorem openConfirmDialog_queue (k : DialogKind) (s : OState) :
    (openConfirmDialog k s).ttsQueue =
      [⟨(dialogVoicePrompt k).getD (dialogMessage k), some .startConfirm⟩] := rfl

theorem handleConfirmYes_queue (s : OState) :
    (handleConfirmYes s).ttsQueue = s.ttsQueue := rfl

theorem handleConfirmCancel_queue (s : OState) :
    (handleConfirmCancel s).ttsQueue = [⟨"Okay, I cancelled that action.", none⟩] := rfl

theorem stopWakeRecognition_queue (s : OState) :
    (stopWakeRecognition s).ttsQueue = s.ttsQueue := by
  unfold stopWakeRecognition; split <;> rfl

theorem stopCommandRecognition_queue (s : OState) :
    (stopCommandRecognition s).ttsQueue = s.ttsQueue := by
  unfold stopCommandRecognition; split <;> rfl

theorem startWakeRecognition_queue (s : OState) :
    (startWakeRecognition s).ttsQueue = s.ttsQueue := by
  unfold startWakeRecognition; split <;> rfl

theorem startWakeRecognition_listening (s : OState) :
    (startWakeRecognition s).listening = s.listening := by
  unfold startWakeRecognition; split <;> rfl

theorem startWake_of_not_listening {s : OState} (h : s.listening = false) :
    startWakeRecognition s = s := by
  unfold startWakeRecognition
  rw [h]
  simp

theorem fireTimers_of_not_listening {s : OState} (n : Nat) (h : s.listening = false) :
    fireTimers n s = s := by
  induction n with
  | zero => rfl
  | succ k ih =>
    rw [fireTimers, startWake_of_not_listening h]
    exact ih

theorem confActive_origin (env : List Task) (e : Event) (s : OState)
    (hx : (stepD env e s).confActive = true) :
    s.confActive = true ∨
    (e = .ttsEnd ∧ ∃ u rest, s.ttsQueue = u :: rest ∧ u.cb = some Cb.startConfirm) ∨
    (e = .confEnd ∧ s.confEndPending = true ∧ s.inConfirmDialog = true) := by
  cases e with
  | wakeResult t =>
    left
    simp only [stepD] at hx
    split at hx
    · split at hx
      · rw [speakRaw_confActive, stopWakeRecognition_confActive] at hx; exact hx
      · exact hx
    · exact hx
  | wakeEnd =>
    left
    simp only [stepD] at hx
    split at hx
    · split at hx <;> simpa using hx
    · exact hx
  | cmdResult t =>
    left
    simp only [stepD] at hx
    split at hx
    · rw [applyCmdEff_confActive] at hx; exact hx
    · exact hx
  | cmdEnd =>
    left
    simp only [stepD] at hx
    split at hx
    · split at hx <;> simpa using hx
    · exact hx
  | cmdError =>
    left
    simp only [stepD] at hx
    split at hx
    · split at hx
      · rw [startWakeRecognition_confActive] at hx; simpa using hx
      · simpa using hx
    · exact hx
  | confResult t =>
    left
    simp only [stepD] at hx
    split at hx
    · split at hx
      · rw [handleConfirmYes_confActive] at hx; cases hx
      · rw [handleConfirmCancel_confActive] at hx; cases hx
      · rw [speak_confActive] at hx; exact hx
    · exact hx
  | confEnd =>
    simp only [stepD] at hx
    split at hx
    · next hp =>
      split at hx
      · next hdg => exact Or.inr (Or.inr ⟨rfl, hp, hdg⟩)
      · simp at hx
    · exact Or.inl hx
  | ttsEnd =>
    simp only [stepD] at hx
    cases hq : s.ttsQueue with
    | nil => rw [hq] at hx; exact Or.inl hx
    | cons u rest =>
      rw [hq] at hx
      cases hc : u.cb with
      | none => simp only [hc] at hx; exact Or.inl hx
      | some c =>
        simp only [hc] at hx
        cases c with
        | startConfirm => exact Or.inr (Or.inl ⟨rfl, u, rest, rfl, hc⟩)
        | startCommand =>
          rw [applyCb_startCommand_confActive] at hx
          exact Or.inl hx
  | wakeTimer =>
    left
    simp only [stepD] at hx
    split at hx
    · exact hx
    · rw [startWakeRecognition_confActive] at hx; exact hx
  | muteToggle =>
    left
    simp only [stepD] at hx
    split at hx
    · exact hx
    · split at hx
      · rw [stopCommandRecognition_confActive, stopWakeRecognition_confActive] at hx
        exact hx
      · rw [startWakeRecognition_confActive] at hx; exact hx
  | clearBtnClick =>
    left
    simp only [stepD] at hx
    split at hx
    · exact hx
    · rw [openConfirmDialog_confActive] at hx; exact hx
  | confYesClick =>
    left
    simp only [stepD] at hx
    split at hx
    · rw [handleConfirmYes_confActive] at hx; cases hx
    · exact hx
  | confNoClick =>
    left
    simp only [stepD] at hx
    split at hx
    · rw [handleConfirmCancel_confActive] at hx; cases hx
    · exact hx

theorem applyCmdEff_queue (eff : CmdEff) (s : OState) :
    (applyCmdEff eff s).ttsQueue = s.ttsQueue ∨
    ∀ u ∈ (applyCmdEff eff s).ttsQueue, u.cb ≠ some Cb.startCommand := by
  cases hdl : eff.dialog with
  | none =>
    rcases foldl_speak_queue eff.spoken s with hq | hq
    · left
      simp only [applyCmdEff, hdl]
      exact hq
    · right
      simp only [applyCmdEff, hdl]
      intro u hu
      rw [hq u hu]
      simp
  | some k =>
    right
    simp only [applyCmdEff, hdl, openConfirmDialog_queue]
    intro u hu
    simp only [List.mem_singleton] at hu
    rw [hu]
    simp


theorem queue_cases (env : List Task) (e : Event) (s : OState) :
    (stepD env e s).ttsQueue = s.ttsQueue ∨
    (stepD env e s).ttsQueue = s.ttsQueue ++ [⟨"Yes?", some Cb.startCommand⟩] ∨
    (∃ u rest, s.ttsQueue = u :: rest ∧ (stepD env e s).ttsQueue = rest) ∨
    (∀ u ∈ (stepD env e s).ttsQueue, u.cb ≠ some Cb.startCommand) := by
  cases e with
  | wakeResult t =>
    simp only [stepD]
    split
    · split
      · right; left
        rw [speakRaw_queue, stopWakeRecognition_queue]
      · left; rfl
    · left; rfl
  | wakeEnd =>
    left
    simp only [stepD]
    split
    · split <;> rfl
    · rfl
  | cmdResult t =>
    simp only [stepD]
    split
    · rcases applyCmdEff_queue (processCommand (some t) env) s with hq | hq
      · left; exact hq
      · right; right; right; exact hq
    · left; rfl
  | cmdEnd =>
    left
    simp only [stepD]
    split
    · split <;> rfl
    · rfl
  | cmdError =>
    left
    simp only [stepD]
    split
    · split
      · rw [startWakeRecognition_queue]
      · rfl
    · rfl
  | confResult t =>
    simp only [stepD]
    split
    · split
      · left; rw [handleConfirmYes_queue]
      · right; right; right
        rw [handleConfirmCancel_queue]
        intro u hu
        simp only [List.mem_singleton] at hu
        rw [hu]
        simp
      · right; right; right
        rw [speak_queue]
        intro u hu
        simp only [List.mem_singleton] at hu
        rw [hu]
        simp
    · left; rfl
  | confEnd =>
    left
    simp only [stepD]
    split
    · split <;> rfl
    · rfl
  | ttsEnd =>
    rcases hqe : s.ttsQueue with _ | ⟨u, rest⟩
    · left
      simp [stepD, hqe]
    · right; right; left
      refine ⟨u, rest, rfl, ?_⟩
      cases hc : u.cb with
      | none => simp [stepD, hqe, hc]
      | some c => simp [stepD, hqe, hc, applyCb_queue]
  | wakeTimer =>
    left
    simp only [stepD]
    split
    · rfl
    · rw [startWakeRecognition_queue]
  | muteToggle =>
    left
    simp only [stepD]
    split
    · rfl
    · split
      · rw [stopCommandRecognition_queue, stopWakeRecognition_queue]
      · rw [startWakeRecognition_queue]
  | clearBtnClick =>
    simp only [stepD]
    split
    · left; rfl
    · right; right; right
      rw [openConfirmDialog_queue]
      intro u hu
      simp only [List.mem_singleton] at hu
      rw [hu]
      simp
  | confYesClick =>
    left
    simp only [stepD]
    split
    · rw [handleConfirmYes_queue]
    · rfl
  | confNoClick =>
    simp only [stepD]
    split
    · right; right; right
      rw [handleConfirmCancel_queue]
      intro u hu
      simp only [List.mem_singleton] at hu
      rw [hu]
      simp
    · left; rfl

theorem yesQueueOk_stepD (env : List Task) (e : Event) (s : OState)
    (h : YesQueueOk s) : YesQueueOk (stepD env e s) := by
  rcases queue_cases env e s with hq | hq | ⟨u, rest, hq1, hq2⟩ | hq
  · intro u hu hc
    exact h u (hq ▸ hu) hc
  · intro u hu hc
    rw [hq] at hu
    rcases List.mem_append.1 hu with hu | hu
    · exact h u hu hc
    · simp only [List.mem_singleton] at hu
      rw [hu]
  · intro v hv hc
    exact h v (by rw [hq1]; exact List.mem_cons_of_mem u (hq2 ▸ hv)) hc
  · intro u hu hc
    exact absurd hc (hq u hu)

theorem yesQueueOk_runD (env : List Task) (tr : List Event) (s : OState)
    (h : YesQueueOk s) : YesQueueOk (runD env tr s) := by
  induction tr generalizing s with
  | nil => exact h
  | cons e rest ih => exact ih (stepD env e s) (yesQueueOk_stepD env e s h)

theorem yesQueueOk_init : YesQueueOk initState := by
  intro u hu
  cases hu

theorem mutedQuiet_stepE (env : List Task) (e : Event) (s : OState)
    (he : e ≠ Event.muteToggle) (h : MutedQuiet s) : MutedQuiet (stepE env e s) := by
  obtain ⟨hls, hwk, hcm, hq⟩ := h
  cases e with
  | wakeResult t =>
    simp only [stepE, stepD, hwk, hq, drainTTSAll, drainQueue, fireAllTimers,
      fireTimers_of_not_listening, drainQueue, applyCb, startWakeRecognition]
    simp only [MutedQuiet]
    simp [hls, hwk, hcm, hq, fireTimers_of_not_listening, drainQueue, applyCb, startWakeRecognition]
  | wakeEnd =>
    by_cases hp : s.wakeEndPending = true
    · simp only [stepE, stepD, hp, hls, hq, drainTTSAll, drainQueue, fireAllTimers]
      simp only [MutedQuiet]
      simp [hls, hwk, hcm, hq, fireTimers_of_not_listening, drainQueue, applyCb, startWakeRecognition]
    · simp only [Bool.not_eq_true] at hp
      simp only [stepE, stepD, hp, hq, drainTTSAll, drainQueue, fireAllTimers]
      simp only [MutedQuiet]
      simp [hls, hwk, hcm, hq, fireTimers_of_not_listening, drainQueue, applyCb, startWakeRecognition]
  | cmdResult t =>
    simp only [stepE, stepD, hcm, hq, drainTTSAll, drainQueue, fireAllTimers]
    simp only [MutedQuiet]
    simp [hls, hwk, hcm, hq, fireTimers_of_not_listening, drainQueue, applyCb, startWakeRecognition]
  | cmdEnd =>
    by_cases hp : s.cmdEndPending = true
    · simp only [stepE, stepD, hp, hls, hq, drainTTSAll, drainQueue, fireAllTimers]
      simp only [MutedQuiet]
      simp [hls, hwk, hcm, hq, fireTimers_of_not_listening, drainQueue, applyCb, startWakeRecognition]
    · simp only [Bool.not_eq_true] at hp
      simp only [stepE, stepD, hp, hq, drainTTSAll, drainQueue, fireAllTimers]
      simp only [MutedQuiet]
      simp [hls, hwk, hcm, hq, fireTimers_of_not_listening, drainQueue, applyCb, startWakeRecognition]
  | cmdError =>
    by_cases hp : s.cmdEndPending = true
    · by_cases hdlg : s.inConfirmDialog = true
      · simp only [stepE, stepD, hp, hdlg, hq, drainTTSAll, drainQueue, fireAllTimers]
        simp only [MutedQuiet]
        simp [hls, hwk, hcm, hq, fireTimers_of_not_listening, drainQueue, applyCb, startWakeRecognition]
      · simp only [Bool.not_eq_true] at hdlg
        simp only [stepE, stepD, hp, hdlg, hls, startWakeRecognition, hq, drainTTSAll,
          drainQueue, fireAllTimers]
        simp only [MutedQuiet]
        simp [hls, hwk, hcm, hq, fireTimers_of_not_listening, drainQueue, applyCb, startWakeRecognition]
    · simp only [Bool.not_eq_true] at hp
      simp only [stepE, stepD, hp, hq, drainTTSAll, drainQueue, fireAllTimers]
      simp only [MutedQuiet]
      simp [hls, hwk, hcm, hq, fireTimers_of_not_listening, drainQueue, applyCb, startWakeRecognition]
  | confResult t =>
    by_cases hcf : s.confActive = true
    · cases hdec : confirmDecision (strTrim (strToLower t)) with
      | accept =>
        simp only [stepE, stepD, hcf, hdec, handleConfirmYes, closeConfirmDialog, hls,
          hq, drainTTSAll, drainQueue, fireAllTimers]
        simp only [MutedQuiet]
        simp [hls, hwk, hcm, hq, fireTimers_of_not_listening, drainQueue, applyCb, startWakeRecognition]
      | decline =>
        simp only [stepE, stepD, hcf, hdec, handleConfirmCancel, closeConfirmDialog,
          speak, hls, hq, drainTTSAll, drainQueue, fireAllTimers]
        simp only [MutedQuiet]
        simp [hls, hwk, hcm, hq, fireTimers_of_not_listening, drainQueue, applyCb, startWakeRecognition]
      | retry =>
        simp only [stepE, stepD, hcf, hdec, speak, hq, drainTTSAll, drainQueue, applyCb,
          hcf, fireAllTimers]
        simp only [MutedQuiet]
        simp [hls, hwk, hcm, hcf, fireTimers_of_not_listening, drainQueue, applyCb, startWakeRecognition]
    · simp only [Bool.not_eq_true] at hcf
      simp only [stepE, stepD, hcf, hq, drainTTSAll, drainQueue, fireAllTimers]
      simp only [MutedQuiet]
      simp [hls, hwk, hcm, hq, fireTimers_of_not_listening, drainQueue, applyCb, startWakeRecognition]
  | confEnd =>
    by_cases hp : s.confEndPending = true
    · by_cases hdlg : s.inConfirmDialog = true
      · simp only [stepE, stepD, hp, hdlg, hq, drainTTSAll, drainQueue, fireAllTimers]
        simp only [MutedQuiet]
        simp [hls, hwk, hcm, hq, fireTimers_of_not_listening, drainQueue, applyCb, startWakeRecognition]
      · simp only [Bool.not_eq_true] at hdlg
        simp only [stepE, stepD, hp, hdlg, hq, drainTTSAll, drainQueue, fireAllTimers]
        simp only [MutedQuiet]
        simp [hls, hwk, hcm, hq, fireTimers_of_not_listening, drainQueue, applyCb, startWakeRecognition]
    · simp only [Bool.not_eq_true] at hp
      simp only [stepE, stepD, hp, hq, drainTTSAll, drainQueue, fireAllTimers]
      simp only [MutedQuiet]
      simp [hls, hwk, hcm, hq, fireTimers_of_not_listening, drainQueue, applyCb, startWakeRecognition]
  | ttsEnd =>
    simp only [stepE, stepD, hq, drainTTSAll, drainQueue, fireAllTimers]
    simp only [MutedQuiet]
    simp [hls, hwk, hcm, hq, fireTimers_of_not_listening, drainQueue, applyCb, startWakeRecognition]
  | wakeTimer =>
    rcases hn : s.wakeTimers with _ | n
    · simp only [stepE, stepD, hn, hq, drainTTSAll, drainQueue, fireAllTimers]
      simp only [MutedQuiet]
      simp [hls, hwk, hcm, hq, fireTimers_of_not_listening, drainQueue, applyCb, startWakeRecognition]
    · simp only [stepE, stepD, hn, hls, startWakeRecognition, hq, drainTTSAll,
        drainQueue, fireAllTimers]
      simp only [MutedQuiet]
      simp [hls, hwk, hcm, hq, fireTimers_of_not_listening, drainQueue, applyCb, startWakeRecognition]
  | muteToggle => exact absurd rfl he
  | clearBtnClick =>
    by_cases hdlg : s.inConfirmDialog = true
    · simp only [stepE, stepD, hdlg, hq, drainTTSAll, drainQueue, fireAllTimers]
      simp only [MutedQuiet]
      simp [hls, hwk, hcm, hq, fireTimers_of_not_listening, drainQueue, applyCb, startWakeRecognition]
    · simp only [Bool.not_eq_true] at hdlg
      by_cases hcf : s.confActive = true
      · simp only [stepE, stepD, hdlg, hcf, openConfirmDialog, speak, stopWakeRecognition,
          stopCommandRecognition, hwk, hcm, drainTTSAll, drainQueue, applyCb,
          fireAllTimers]
        simp only [MutedQuiet]
        simp [hls, hwk, hcm, hcf, fireTimers_of_not_listening, drainQueue, applyCb, startWakeRecognition]
      · simp only [Bool.not_eq_true] at hcf
        simp only [stepE, stepD, hdlg, hcf, openConfirmDialog, speak, stopWakeRecognition,
          stopCommandRecognition, hwk, hcm, drainTTSAll, drainQueue, applyCb,
          fireAllTimers]
        simp only [MutedQuiet]
        simp [hls, hwk, hcm, hcf, fireTimers_of_not_listening, drainQueue, applyCb, startWakeRecognition]
  | confYesClick =>
    by_cases hdlg : s.inConfirmDialog = true
    · simp only [stepE, stepD, hdlg, handleConfirmYes, closeConfirmDialog, hls, hq,
        drainTTSAll, drainQueue, fireAllTimers]
      simp only [MutedQuiet]
      simp [hls, hwk, hcm, hq, fireTimers_of_not_listening, drainQueue, applyCb, startWakeRecognition]
    · simp only [Bool.not_eq_true] at hdlg
      simp only [stepE, stepD, hdlg, hq, drainTTSAll, drainQueue, fireAllTimers]
      simp only [MutedQuiet]
      simp [hls, hwk, hcm, hq, fireTimers_of_not_listening, drainQueue, applyCb, startWakeRecognition]
  | confNoClick =>
    by_cases hdlg : s.inConfirmDialog = true
    · simp only [stepE, stepD, hdlg, handleConfirmCancel, closeConfirmDialog, speak,
        hls, hq, drainTTSAll, drainQueue, fireAllTimers]
      simp only [MutedQuiet]
      simp [hls, hwk, hcm, hq, fireTimers_of_not_listening, drainQueue, applyCb, startWakeRecognition]
    · simp only [Bool.not_eq_true] at hdlg
      simp only [stepE, stepD, hdlg, hq, drainTTSAll, drainQueue, fireAllTimers]
      simp only [MutedQuiet]
      simp [hls, hwk, hcm, hq, fireTimers_of_not_listening, drainQueue, applyCb, startWakeRecognition]

theorem mutedQuiet_runE (env : List Task) (tr : List Event) (s : OState)
    (htr : ∀ e ∈ tr, e ≠ Event.muteToggle) (h : MutedQuiet s) :
    MutedQuiet (runE env tr s) := by
  induction tr generalizing s with
  | nil => exact h
  | cons e rest ih =>
    exact ih (stepE env e s)
      (fun x hx => htr x (List.mem_cons_of_mem e hx))
      (mutedQuiet_stepE env e s (htr e (List.mem_cons_self e rest)) h)


/-! ### Helper lemmas about the string primitives -/

theorem listIncludes_decomp (sub l : List Char) (h : listIncludes sub l = true) :
    ∃ pre post, l = pre ++ sub ++ post := by
  induction l with
  | nil =>
    refine ⟨[], [], ?_⟩
    simp only [listIncludes, List.isEmpty_iff] at h
    rw [h]; rfl
  | cons c rest ih =>
    simp only [listIncludes, Bool.or_eq_true] at h
    rcases h with h | h
    · rcases List.isPrefixOf_iff_prefix.1 h with ⟨t, ht⟩
      exact ⟨[], t, ht.symm⟩
    · rcases ih h with ⟨pre, post, hp⟩
      exact ⟨c :: pre, post, by rw [hp]; rfl⟩

theorem all_ws_of_trim_nil {l : List Char} (h : trimChars l = []) :
    ∀ c ∈ l, isWsChar c = true := by
  unfold trimChars at h
  rw [List.reverse_eq_nil_iff, List.dropWhile_eq_nil_iff] at h
  intro c hc
  rcases List.mem_append.1 ((List.takeWhile_append_dropWhile isWsChar l) ▸ hc) with hm | hm
  · exact List.mem_takeWhile_imp hm
  · exact h c (List.mem_reverse.2 hm)

theorem trim_ne_nil_of_mem {l : List Char} {c : Char} (hc : c ∈ l)
    (hw : isWsChar c = false) : trimChars l ≠ [] := by
  intro h
  rw [all_ws_of_trim_nil h c hc] at hw
  cases hw

theorem trim_nil_of_all_ws {l : List Char} (h : ∀ c ∈ l, isWsChar c = true) :
    trimChars l = [] := by
  unfold trimChars
  rw [List.reverse_eq_nil_iff, List.dropWhile_eq_nil_iff]
  intro x hx
  exact h x ((List.dropWhile_sublist isWsChar).subset (List.mem_reverse.1 hx))

theorem not_ws_of_toLower_c {ch : Char} (h : Char.toLower ch = 'c') :
    isWsChar ch = false := by
  by_cases hw : isWsChar ch = true
  · simp only [isWsChar, Bool.or_eq_true, beq_iff_eq] at hw
    rcases hw with ((h1 | h1) | h1) | h1 <;> rw [h1] at h <;> exact absurd h (by decide)
  · exact Bool.not_eq_true _ ▸ hw


/-! ### The claims -/

/-- C1: in the interleaved semantics the session-exclusion invariant fails:
a wake restart scheduled by the wake session's end handler before the clear
button opens the confirmation dialog fires while the dialog is open, and
once the dialog prompt completes, the wake session and the confirmation
session are capturing at the same time. -/
theorem C1_counterexample :
    ¬ AtMostOneSession (runD []
      [Event.wakeEnd, Event.clearBtnClick, Event.wakeTimer, Event.ttsEnd] initState) ∧
    (runD [] [Event.wakeEnd, Event.clearBtnClick, Event.wakeTimer, Event.ttsEnd]
      initState).wakeRunning = true ∧
    (runD [] [Event.wakeEnd, Event.clearBtnClick, Event.wakeTimer, Event.ttsEnd]
      initState).confActive = true := by decide

/-- C1 (amended): under the eager semantics, in which every deferred
utterance callback and wake-restart timer fires before the next external
event, at most one of the wake, command and confirmation sessions is
actively capturing after any event trace from the initial state. -/
theorem C1_atMostOneSessionEager (env : List Task) (tr : List Event) :
    AtMostOneSession (runE env tr initState) :=
  (invE_runE env tr initState invE_init).1

/-- C2: the wake-detected handler itself never starts the command session,
and whenever the command session goes from inactive to active the step is
the completion (ttsEnd) of the queued `"Yes?"` prompt utterance carrying
the start-command callback: the prompt finishes strictly before
`commandRecognition.start()` runs. -/
theorem C2_promptBeforeCommandStart (env : List Task) (tr : List Event) (e : Event)
    (t : String)
    (hc0 : (runD env tr initState).cmdActive = false)
    (hc1 : (stepD env e (runD env tr initState)).cmdActive = true) :
    (stepD env (Event.wakeResult t) (runD env tr initState)).cmdActive = false ∧
    e = Event.ttsEnd ∧
    ∃ rest, (runD env tr initState).ttsQueue =
      ⟨"Yes?", some Cb.startCommand⟩ :: rest := by
  have hwr : ∀ s : OState,
      (stepD env (Event.wakeResult t) s).cmdActive = s.cmdActive := by
    intro s
    simp only [stepD]
    split
    · split
      · rw [speakRaw_cmdActive, stopWakeRecognition_cmdActive]
      · rfl
    · rfl
  refine ⟨by rw [hwr]; exact hc0, ?_⟩
  rcases cmdActive_origin env e _ hc1 with hc | ⟨he, u, rest, hq, hcb⟩
  · rw [hc0] at hc; cases hc
  · have hok : YesQueueOk (runD env tr initState) :=
      yesQueueOk_runD env tr initState yesQueueOk_init
    have htx : u.text = "Yes?" := hok u (hq ▸ List.mem_cons_self u rest) hcb
    refine ⟨he, rest, ?_⟩
    rw [hq]
    cases u with
    | mk text cb =>
      rw [show text = "Yes?" from htx, show cb = some Cb.startCommand from hcb]

theorem C2_promptBeforeCommandStart_witness :
    (stepD [] (Event.wakeResult "hey todo")
      (runD [] [Event.wakeResult "hey todo"] initState)).cmdActive = false ∧
    Event.ttsEnd = Event.ttsEnd ∧
    ∃ rest, (runD [] [Event.wakeResult "hey todo"] initState).ttsQueue =
      ⟨"Yes?", some Cb.startCommand⟩ :: rest :=
  C2_promptBeforeCommandStart [] [Event.wakeResult "hey todo"] Event.ttsEnd
    "hey todo" (by decide) (by decide)

/-- C3: `openConfirmDialog` queues exactly the voice prompt (falling back
to the message) with the start-confirmation callback and does not itself
start the confirmation session; from any state where the session is
inactive with no pending end event, its first activation happens only at
the completion (ttsEnd) of an utterance carrying that callback. -/
theorem C3_confirmStartsAfterPromptEnd (env : List Task) (k : DialogKind) (e : Event)
    (s : OState)
    (h0 : s.confActive = false) (hpend : s.confEndPending = false)
    (h1 : (stepD env e s).confActive = true) :
    (openConfirmDialog k s).ttsQueue =
      [⟨(dialogVoicePrompt k).getD (dialogMessage k), some Cb.startConfirm⟩] ∧
    (openConfirmDialog k s).confActive = false ∧
    e = Event.ttsEnd ∧
    ∃ u rest, s.ttsQueue = u :: rest ∧ u.cb = some Cb.startConfirm := by
  refine ⟨openConfirmDialog_queue k s,
    by rw [openConfirmDialog_confActive]; exact h0, ?_⟩
  rcases confActive_origin env e s h1 with hc | ⟨he, hrest⟩ | ⟨-, hp, -⟩
  · rw [h0] at hc; cases hc
  · exact ⟨he, hrest⟩
  · rw [hpend] at hp; cases hp

theorem C3_confirmStartsAfterPromptEnd_witness :
    (openConfirmDialog DialogKind.clearAll
        (openConfirmDialog DialogKind.clearAll initState)).ttsQueue =
      [⟨(dialogVoicePrompt DialogKind.clearAll).getD (dialogMessage DialogKind.clearAll),
        some Cb.startConfirm⟩] ∧
    (openConfirmDialog DialogKind.clearAll
        (openConfirmDialog DialogKind.clearAll initState)).confActive = false ∧
    Event.ttsEnd = Event.ttsEnd ∧
    ∃ u rest, (openConfirmDialog DialogKind.clearAll initState).ttsQueue = u :: rest ∧
      u.cb = some Cb.startConfirm :=
  C3_confirmStartsAfterPromptEnd [] DialogKind.clearAll Event.ttsEnd
    (openConfirmDialog DialogKind.clearAll initState) (by decide) (by decide) (by decide)

/-- C4: a transcript whose trimmed, lowercased form starts with
`"add "` and also contains `"clear all"` is handled by the AddTask branch:
the interpreter issues the single POST `/add` with the captured name,
opens no confirmation dialog, and speaks nothing. -/
theorem C4_addWinsOverClearAll (c : String) (tasks : List Task)
    (h1 : strStartsWith (strToLower (strTrim c)) "add " = true)
    (h2 : strIncludes (strToLower (strTrim c)) "clear all" = true) :
    (processCommand (some c) tasks).dialog = none ∧
    (processCommand (some c) tasks).posts =
      [⟨"/add", some (strTrim (strDrop 3 (strTrim c)))⟩] ∧
    (processCommand (some c) tasks).spoken = [] := by
  have hc0 : ¬(c = "") := by
    intro hce; rw [hce] at h1; exact absurd h1 (by decide)
  have hcmd : ¬(strTrim c = "") := by
    intro hce; rw [hce] at h1; exact absurd h1 (by decide)
  have hname : ¬(strTrim (strDrop 3 (strTrim c)) = "") := by
    obtain ⟨pre, post, hdec⟩ := listIncludes_decomp _ _ h2
    obtain ⟨t, ht⟩ := List.isPrefixOf_iff_prefix.1 h1
    have ha : "add ".data = ['a', 'd', 'd', ' '] := by decide
    have hca : "clear all".data = ['c', 'l', 'e', 'a', 'r', ' ', 'a', 'l', 'l'] := by
      decide
    rw [ha] at ht
    rw [hca] at hdec
    simp only [List.cons_append, List.nil_append] at ht hdec
    have hcm : 'c' ∈ (strToLower (strTrim c)).data.drop 3 := by
      rcases pre with _ | ⟨a1, pre⟩
      · rw [← ht] at hdec
        simp at hdec
      · rcases pre with _ | ⟨a2, pre⟩
        · rw [← ht] at hdec
          simp at hdec
        · rcases pre with _ | ⟨a3, r⟩
          · rw [← ht] at hdec
            simp at hdec
          · rw [hdec]
            simp
    rw [show (strToLower (strTrim c)).data = (strTrim c).data.map Char.toLower from rfl,
      ← List.map_drop] at hcm
    obtain ⟨ch, hchmem, hchlow⟩ := List.mem_map.1 hcm
    intro hns
    have hns2 : trimChars ((strTrim c).data.drop 3) = [] :=
      congrArg String.data hns
    exact trim_ne_nil_of_mem hchmem (not_ws_of_toLower_c hchlow) hns2
  have key : processCommand (some c) tasks =
      postEff "/add" (some (strTrim (strDrop 3 (strTrim c)))) := by
    simp only [processCommand, if_neg hc0, if_neg hcmd, h1, if_true, if_neg hname]
  rw [key]
  exact ⟨rfl, rfl, rfl⟩

theorem C4_addWinsOverClearAll_witness :
    (processCommand (some "add clear all the lists") []).dialog = none ∧
    (processCommand (some "add clear all the lists") []).posts =
      [⟨"/add", some (strTrim (strDrop 3 (strTrim "add clear all the lists")))⟩] ∧
    (processCommand (some "add clear all the lists") []).spoken = [] :=
  C4_addWinsOverClearAll "add clear all the lists" [] (by decide) (by decide)

/-- C5: every phrase of the accepted wake-variant list is detected by
`wakeWordHeard` when embedded in surrounding text (after the normalizer
removes case, punctuation and extra whitespace), and a transcript whose
normalized form contains no variant as a substring is never detected. -/
theorem C5_wakeVariantDetection :
    (∀ p ∈ wakeVariants, wakeWordHeard ("... " ++ p ++ " ...") = true) ∧
    (∀ t : String, (∀ v ∈ wakeVariants, strIncludes (normalizeTranscript t) v = false) →
      wakeWordHeard t = false) := by
  constructor
  · decide
  · intro t h
    unfold wakeWordHeard
    split
    · rfl
    · rw [Bool.eq_false_iff]
      intro hany
      rw [List.any_eq_true] at hany
      obtain ⟨v, hv, hp⟩ := hany
      rw [h v hv] at hp
      cases hp

theorem C5_wakeVariantDetection_witness :
    wakeWordHeard ("... " ++ "hey todo" ++ " ...") = true ∧
    wakeWordHeard "water the plants" = false :=
  ⟨C5_wakeVariantDetection.1 "hey todo" (by decide),
   C5_wakeVariantDetection.2 "water the plants" (by decide)⟩

/-- C6: in the eager semantics, the command transcript "clear all" opens
the confirmation dialog and speaks its voice prompt, which contains
"Warning"; the voice reply "yes" posts exactly `/clear`, while the voice
reply "no" posts nothing and speaks the cancellation message. -/
theorem C6_clearAllConfirmationFlow :
    strIncludes ((dialogVoicePrompt DialogKind.clearAll).getD
      (dialogMessage DialogKind.clearAll)) "Warning" = true ∧
    (runE [] [Event.wakeResult "hey todo", Event.cmdResult "clear all"]
      initState).inConfirmDialog = true ∧
    (runE [] [Event.wakeResult "hey todo", Event.cmdResult "clear all"]
      initState).spokenLog.contains
      "Warning. This will delete all of your tasks. Are you sure?" = true ∧
    (runE [] [Event.wakeResult "hey todo", Event.cmdResult "clear all",
      Event.confResult "yes"] initState).postsLog = [⟨"/clear", none⟩] ∧
    (runE [] [Event.wakeResult "hey todo", Event.cmdResult "clear all",
      Event.confResult "no"] initState).postsLog = [] ∧
    (runE [] [Event.wakeResult "hey todo", Event.cmdResult "clear all",
      Event.confResult "no"] initState).spokenLog.contains
      "Okay, I cancelled that action." = true := by decide

/-- C7: the confirmation classifier does not accept every transcript
containing "yes": the yes-test is exact string equality, so "yes please"
(which contains "yes") is neither accepted nor declined and triggers the
re-prompt path instead. -/
theorem C7_counterexample :
    strIncludes "yes please" "yes" = true ∧
    confirmDecision "yes please" = CDecision.retry ∧
    confirmDecision (strTrim (strToLower "Yes please")) = CDecision.retry := by decide

/-- C7 (amended): a confirmation transcript is accepted exactly when it
contains "confirm", equals "yes" exactly, or contains "yeah" or "sure";
it is declined exactly when it is not accepted and contains "cancel",
"no" or "nope"; while the session is active an unrecognized reply makes
the handler speak the re-prompt with the restart callback, and as long
as the dialog stays open the session end event restarts the session. -/
theorem C7_confirmReplyHandling (env : List Task) (t : String) (s : OState) :
    (confirmDecision t = CDecision.accept ↔
      (strIncludes t "confirm" || t == "yes" || strIncludes t "yeah" ||
        strIncludes t "sure") = true) ∧
    (confirmDecision t = CDecision.decline ↔
      ((strIncludes t "confirm" || t == "yes" || strIncludes t "yeah" ||
          strIncludes t "sure") = false ∧
        (strIncludes t "cancel" || strIncludes t "no" ||
          strIncludes t "nope") = true)) ∧
    (s.confActive = true →
      confirmDecision (strTrim (strToLower t)) = CDecision.retry →
      stepD env (Event.confResult t) s =
        speak "I did not catch that. Can you repeat?" (some Cb.startConfirm) s) ∧
    (s.confEndPending = true → s.inConfirmDialog = true →
      (stepD env Event.confEnd s).confActive = true ∧
      (stepD env Event.confEnd s).confEndPending = true) := by
  refine ⟨?_, ?_, ?_, ?_⟩
  · unfold confirmDecision
    split
    · rename_i hacc
      simp [hacc]
    · rename_i hacc
      rw [Bool.not_eq_true] at hacc
      split <;> simp [hacc]
  · unfold confirmDecision
    split
    · rename_i hacc
      simp [hacc]
    · rename_i hacc
      rw [Bool.not_eq_true] at hacc
      split
      · rename_i hdec
        simp [hacc, hdec]
      · rename_i hdec
        rw [Bool.not_eq_true] at hdec
        simp [hacc, hdec]
  · intro hact hre
    simp only [stepD, hact, hre, if_true]
  · intro hp hdlg
    simp only [stepD, hp, if_true]
    simp [hdlg]

theorem C7_confirmReplyHandling_witness :
    stepD [] (Event.confResult "what")
        ⟨true, false, true, false, false, false, false, true, true, [], 0,
          some DialogKind.clearAll, [], []⟩ =
      speak "I did not catch that. Can you repeat?" (some Cb.startConfirm)
        ⟨true, false, true, false, false, false, false, true, true, [], 0,
          some DialogKind.clearAll, [], []⟩ ∧
    (stepD [] Event.confEnd
        ⟨true, false, true, false, false, false, false, true, true, [], 0,
          some DialogKind.clearAll, [], []⟩).confActive = true :=
  ⟨(C7_confirmReplyHandling [] "what"
      ⟨true, false, true, false, false, false, false, true, true, [], 0,
        some DialogKind.clearAll, [], []⟩).2.2.1 rfl (by decide),
   ((C7_confirmReplyHandling [] "what"
      ⟨true, false, true, false, false, false, false, true, true, [], 0,
        some DialogKind.clearAll, [], []⟩).2.2.2 rfl rfl).1⟩

/-- C8: toggling mute from a listening, dialog-free state satisfying the
eager invariant leaves the wake and command sessions stopped, the speech
queue empty, and the app not listening; no later trace that does not
toggle back can restart any wake or command capture. -/
theorem C8_muteForcesQuiet (env : List Task) (tr : List Event) (s : OState)
    (hInv : InvE s) (hl : s.listening = true) (hdlg : s.inConfirmDialog = false)
    (htr : ∀ e ∈ tr, e ≠ Event.muteToggle) :
    MutedQuiet (runE env tr (stepE env Event.muteToggle s)) := by
  obtain ⟨-, -, -, -, -, hq, htm⟩ := hInv
  apply mutedQuiet_runE env tr _ htr
  by_cases hw : s.wakeRunning = true
  · by_cases hc : s.cmdActive = true
    · simp only [stepE, stepD, hdlg, hl, stopWakeRecognition, stopCommandRecognition,
        hw, hc, hq, htm, drainTTSAll, drainQueue, fireAllTimers]
      simp only [MutedQuiet]
      simp [drainQueue, fireTimers_zero]
    · simp only [Bool.not_eq_true] at hc
      simp only [stepE, stepD, hdlg, hl, stopWakeRecognition, stopCommandRecognition,
        hw, hc, hq, htm, drainTTSAll, drainQueue, fireAllTimers]
      simp only [MutedQuiet]
      simp [drainQueue, fireTimers_zero]
  · by_cases hc : s.cmdActive = true
    · simp only [Bool.not_eq_true] at hw
      simp only [stepE, stepD, hdlg, hl, stopWakeRecognition, stopCommandRecognition,
        hw, hc, hq, htm, drainTTSAll, drainQueue, fireAllTimers]
      simp only [MutedQuiet]
      simp [drainQueue, fireTimers_zero]
    · simp only [Bool.not_eq_true] at hw hc
      simp only [stepE, stepD, hdlg, hl, stopWakeRecognition, stopCommandRecognition,
        hw, hc, hq, htm, drainTTSAll, drainQueue, fireAllTimers]
      simp only [MutedQuiet]
      simp [drainQueue, fireTimers_zero]

theorem C8_muteForcesQuiet_witness :
    MutedQuiet (runE [] [Event.wakeTimer, Event.wakeResult "hey todo"]
      (stepE [] Event.muteToggle
        (stepE [] (Event.wakeResult "hey todo") initState))) :=
  C8_muteForcesQuiet [] [Event.wakeTimer, Event.wakeResult "hey todo"]
    (stepE [] (Event.wakeResult "hey todo") initState)
    (by decide) (by decide) (by decide) (by decide)

/-- C9: `sendCommandJson` always records the requested path; a rejected
fetch produces the spoken and displayed "Network error." with no refresh;
a non-success HTTP status speaks and displays the response error (or
"Unknown error") without refreshing and returns null; a success speaks the
optional message and refreshes the task list, returning the response. -/
theorem C9_sendCommandJsonOutcomes (path : String) (resp : Option ApiResp) :
    (sendCommandJson path resp).requestedPath = path ∧
    (resp = none → sendCommandJson path resp =
      ⟨path, ["Network error."], [("Network error.", "red")], false, none⟩) ∧
    (∀ r, resp = some r → r.ok = false →
      (sendCommandJson path resp).spoken = [r.error.getD "Unknown error"] ∧
      (sendCommandJson path resp).statusShown = [(r.error.getD "Unknown error", "red")] ∧
      (sendCommandJson path resp).refreshed = false ∧
      (sendCommandJson path resp).returned = none) ∧
    (∀ r, resp = some r → r.ok = true →
      (sendCommandJson path resp).spoken =
        (match r.message with | some m => [m] | none => []) ∧
      (sendCommandJson path resp).statusShown = [] ∧
      (sendCommandJson path resp).refreshed = true ∧
      (sendCommandJson path resp).returned = some r) := by
  refine ⟨?_, ?_, ?_, ?_⟩
  · cases resp with
    | none => rfl
    | some r =>
      simp only [sendCommandJson]
      split <;> rfl
  · intro h; rw [h]; rfl
  · rintro r rfl hok
    simp [sendCommandJson, hok]
  · rintro r rfl hok
    simp [sendCommandJson, hok]

theorem C9_sendCommandJsonOutcomes_witness :
    (sendCommandJson "/add" none).requestedPath = "/add" ∧
    sendCommandJson "/add" none =
      ⟨"/add", ["Network error."], [("Network error.", "red")], false, none⟩ ∧
    (sendCommandJson "/add" (some ⟨false, none, some "boom"⟩)).spoken = ["boom"] ∧
    (sendCommandJson "/clear" (some ⟨true, some "Cleared.", none⟩)).refreshed = true :=
  ⟨(C9_sendCommandJsonOutcomes "/add" none).1,
   (C9_sendCommandJsonOutcomes "/add" none).2.1 rfl,
   ((C9_sendCommandJsonOutcomes "/add" (some ⟨false, none, some "boom"⟩)).2.2.1
      ⟨false, none, some "boom"⟩ rfl rfl).1,
   ((C9_sendCommandJsonOutcomes "/clear" (some ⟨true, some "Cleared.", none⟩)).2.2.2
      ⟨true, some "Cleared.", none⟩ rfl rfl).2.2.1⟩

/-- C10: an undefined, empty, or all-whitespace command transcript makes
`processCommand` a complete no-op: the returned effect speaks nothing,
shows nothing, issues no request, opens no dialog and leaves the sort
mode unchanged. -/
theorem C10_blankTranscriptNoOp (cmdOpt : Option String) (tasks : List Task)
    (h : cmdOpt = none ∨ ∃ c, cmdOpt = some c ∧ ∀ ch ∈ c.data, isWsChar ch = true) :
    processCommand cmdOpt tasks = emptyEff := by
  rcases h with h | ⟨c, hc, hws⟩
  · rw [h]; rfl
  · rw [hc]
    by_cases hce : c = ""
    · rw [hce]; rfl
    · have htr : strTrim c = "" := congrArg String.mk (trim_nil_of_all_ws hws)
      simp [processCommand, hce, htr]

theorem C10_blankTranscriptNoOp_witness :
    processCommand (some "   ") [] = emptyEff :=
  C10_blankTranscriptNoOp (some "   ") []
    (Or.inr ⟨"   ", rfl, by decide⟩)

end VoiceTodo
